import Mathlib

/-!
Verification of the terway daemon network-service coordinator
(`daemon/daemon.go`, `types/daemon/config.go`).

The Go code is shallowly embedded: pure helpers become Lean functions;
the gRPC handlers (`AllocIP`, `ReleaseIP`, `GetIPInfo`) and one tick of the
garbage-collection loop become explicit state-passing functions over a
store modelled as an association list keyed by pod key.  External
collaborators (the Kubernetes cache, the resource managers, the request
context) are injected as explicit outcome parameters so that every control
path of the Go source is reachable in the model.  Fallible operations
return `Except`.
-/

set_option maxRecDepth 4000
set_option linter.unusedVariables false

deriving instance DecidableEq for Except

namespace Terway

/-- Daemon mode constant `daemonModeVPC`. -/
def daemonModeVPC : String := "VPC"

/-- Daemon mode constant `daemonModeENIMultiIP`. -/
def daemonModeENIMultiIP : String := "ENIMultiIP"

/-- Daemon mode constant `daemonModeENIOnly`. -/
def daemonModeENIOnly : String := "ENIOnly"

/-- Interface name constant `IfEth0`. -/
def IfEth0 : String := "eth0"

/-- Modelled from the spec: the pod network type strings
(`podNetworkTypeENIMultiIP`, `podNetworkTypeVPCENI`, `podNetworkTypeVPCIP`
are declared in a file of the daemon package that is not under src; the
spec gives `PodNetworkType ∈ \x7bENIMultiIP, VPCENI, VPCIP\x7d`). -/
def podNetworkTypeENIMultiIP : String := "ENIMultiIP"

/-- Modelled from the spec: pod network type for exclusive ENI pods. -/
def podNetworkTypeVPCENI : String := "VPCENI"

/-- Modelled from the spec: pod network type for veth (pod CIDR) pods. -/
def podNetworkTypeVPCIP : String := "VPCIP"

/-- Modelled from the spec: resource type strings of `types.ResourceItem`
(the types package is not under src; the spec gives
`type ∈ \x7bENI, ENIIP, Veth, EIP\x7d`). -/
def ResourceTypeENI : String := "eni"

/-- Modelled from the spec: resource type string for ENI secondary IPs. -/
def ResourceTypeENIIP : String := "eniIp"

/-- Modelled from the spec: resource type string for veth resources. -/
def ResourceTypeVeth : String := "veth"

/-- Modelled from the spec: resource type string for elastic public IPs. -/
def ResourceTypeEIP : String := "eip"

/-- An `IPSet` carries an IPv4 and an IPv6 textual address; empty string
means absent (mirrors `types.IPSet` / `rpc.IPSet`). -/
structure IPSet where
  ipv4 : String := ""
  ipv6 : String := ""
  deriving Repr, DecidableEq

/-- The `rpc.BasicInfo` message of a `NetConf`. -/
structure BasicInfo where
  podIP : Option IPSet := none
  podCIDR : Option IPSet := none
  gatewayIP : Option IPSet := none
  serviceCIDR : Option IPSet := none
  deriving Repr, DecidableEq

/-- The `rpc.ENIInfo` message of a `NetConf`. -/
structure ENIInfo where
  mac : String := ""
  trunk : Bool := false
  vid : Nat := 0
  gatewayIP : Option IPSet := none
  deriving Repr, DecidableEq

/-- The `rpc.Pod` message of a `NetConf` (traffic shaping). -/
structure PodShaping where
  ingress : Nat := 0
  egress : Nat := 0
  networkPriority : String := ""
  deriving Repr, DecidableEq

/-- An extra route entry (`rpc.Route`), only the destination is carried. -/
structure RpcRoute where
  dst : String := ""
  deriving Repr, DecidableEq

/-- The `rpc.NetConf` message: one interface configuration of a reply. -/
structure NetConf where
  basicInfo : Option BasicInfo := none
  eniInfo : Option ENIInfo := none
  pod : Option PodShaping := none
  ifName : String := ""
  extraRoutes : List RpcRoute := []
  defaultRoute : Bool := false
  deriving Repr, DecidableEq

/-- Go helper `defaultIf`: an interface name designates the default
interface when it is empty or `eth0`. -/
def defaultIf (name : String) : Bool :=
  if name = "" || name = IfEth0 then true else false

/-- First loop of `defaultForNetConf`: walks the list carrying the
`defaultRouteSet` and `defaultIfSet` flags; errors on a second entry with
`DefaultRoute=true`. -/
def defaultForNetConfScan : List NetConf → Bool → Bool → Except String (Bool × Bool)
  | [], defaultRouteSet, defaultIfSet => .ok (defaultRouteSet, defaultIfSet)
  | c :: rest, defaultRouteSet, defaultIfSet =>
    if c.defaultRoute && defaultRouteSet then
      .error "default route is dumplicated"
    else
      defaultForNetConfScan rest (defaultRouteSet || c.defaultRoute)
        (defaultIfSet || defaultIf c.ifName)

/-- Second loop of `defaultForNetConf`: marks the first entry whose name is
empty or `eth0` as the default route and stops. -/
def markFirstDefault : List NetConf → List NetConf
  | [] => []
  | c :: rest =>
    if c.ifName = "" || c.ifName = IfEth0 then
      { c with defaultRoute := true } :: rest
    else
      c :: markFirstDefault rest

/-- Go function `defaultForNetConf`: validates the default-route and
default-interface constraints of a `NetConf` list and auto-assigns the
default route when absent.  The Go code mutates the slice in place and
returns an error; the model returns the updated list. -/
def defaultForNetConf (netConf : List NetConf) : Except String (List NetConf) :=
  if netConf.length = 0 then
    .ok netConf
  else
    match defaultForNetConfScan netConf false false with
    | .error e => .error e
    | .ok (defaultRouteSet, defaultIfSet) =>
      if !defaultIfSet then
        .error "default interface is not set"
      else if !defaultRouteSet then
        .ok (markFirstDefault netConf)
      else
        .ok netConf

/-- Go method `verifyPodNetworkType` of the network service: compatibility
of the daemon mode with the network type of the pod. -/
def verifyPodNetworkType (daemonMode : String) (podNetworkMode : String) : Bool :=
  (daemonMode = daemonModeVPC &&
    (podNetworkMode = podNetworkTypeVPCENI || podNetworkMode = podNetworkTypeVPCIP)) ||
  (daemonMode = daemonModeENIMultiIP && podNetworkMode = podNetworkTypeENIMultiIP) ||
  (daemonMode = daemonModeENIOnly && podNetworkMode = podNetworkTypeVPCENI)

/-- Snapshot of a pod read from the Kubernetes cache (`types.PodInfo`; the
types package is not under src, fields are the ones the daemon code and the
spec data-model section use). -/
structure PodInfo where
  ns : String := ""
  name : String := ""
  podNetworkType : String := ""
  podENI : Bool := false
  podEip : Bool := false
  ipStickTime : Nat := 0
  tcIngress : Nat := 0
  tcEgress : Nat := 0
  networkPriority : String := ""
  podIPs : IPSet := {}
  sandboxExited : Bool := false
  deriving Repr, DecidableEq

/-- A resource item of a persisted record (`types.ResourceItem`): a type
tag and an opaque id. -/
structure ResourceItem where
  rtype : String := ""
  id : String := ""
  deriving Repr, DecidableEq

/-- The persisted record of a pod (`types.PodResources`). -/
structure PodResources where
  podInfo : PodInfo := {}
  resources : List ResourceItem := []
  netNs : Option String := none
  containerID : Option String := none
  deriving Repr, DecidableEq

/-- Go method `GetResourceItemByType` of `types.PodResources` (modelled
from the spec and its uses: the stored items of one type). -/
def PodResources.getResourceItemByType (p : PodResources) (resType : String) : List ResourceItem :=
  p.resources.filter (fun r => r.rtype = resType)

/-- Go helper `podInfoKey`: the store key of a pod. -/
def podInfoKey (ns name : String) : String :=
  ns ++ "/" ++ name

/-- The on-disk resource store keyed by pod key, modelled as an
association list. -/
abbrev Store := List (String × PodResources)

/-- Store read (`storage.Get`): the first entry with a matching key. -/
def storeGet (s : Store) (k : String) : Option PodResources :=
  match s with
  | [] => none
  | (k0, v) :: rest => if k0 = k then some v else storeGet rest k

/-- Store write (`storage.Put`): replaces the entry with a matching key or
appends a fresh one. -/
def storePut (s : Store) (k : String) (v : PodResources) : Store :=
  match s with
  | [] => [(k, v)]
  | (k0, v0) :: rest =>
    if k0 = k then (k0, v) :: rest else (k0, v0) :: storePut rest k v

/-- Store delete (`storage.Delete`): removes every entry with the key. -/
def storeDelete : Store → String → Store
  | [], _ => []
  | (k0, v0) :: rest, k =>
    if k0 = k then storeDelete rest k else (k0, v0) :: storeDelete rest k

/-- Go method `getPodResource`: a store miss is not an error, it yields the
zero `PodResources` value. -/
def getPodResource (s : Store) (info : PodInfo) : PodResources :=
  match storeGet s (podInfoKey info.ns info.name) with
  | some r => r
  | none => {}

/-- Result of a single `ResourceManager.Release` call, injected per item:
`ok`, the tolerated `pool.ErrInvalidState`, or a fatal error. -/
inductive ReleaseResult where
  | ok
  | invalidState
  | failed (msg : String)
  deriving Repr, DecidableEq

/-- Which resource types have a non-nil manager in `mgrForResource`,
derived from the `newNetworkService` switch on the daemon mode (a map
entry whose value is the nil `eipResMgr` behaves as missing, because
`getResourceManagerForRes` then returns nil). -/
def mgrForResourceExists (daemonMode : String) (eipMgrPresent : Bool) (resType : String) : Bool :=
  if daemonMode = daemonModeVPC then
    resType = ResourceTypeENI || resType = ResourceTypeVeth
  else if daemonMode = daemonModeENIMultiIP then
    resType = ResourceTypeENIIP || (resType = ResourceTypeEIP && eipMgrPresent)
  else if daemonMode = daemonModeENIOnly then
    resType = ResourceTypeENI || (resType = ResourceTypeEIP && eipMgrPresent)
  else
    false

/-- A cloud elastic network interface (`types.ENI`, modelled from the spec
and its uses in the daemon file). -/
structure ENI where
  id : String := ""
  mac : String := ""
  gatewayIP : IPSet := {}
  vswitchCIDR : IPSet := {}
  primaryIP : IPSet := {}
  trunk : Bool := false
  deriving Repr, DecidableEq

/-- A secondary IP on an ENI (`types.ENIIP`). -/
structure ENIIP where
  eni : ENI := {}
  ipSet : IPSet := {}
  deriving Repr, DecidableEq

/-- An elastic public IP (`types.EIP`). -/
structure EIP where
  id : String := ""
  deriving Repr, DecidableEq

/-- A veth resource (`types.Veth`). -/
structure Veth where
  hostVeth : String := ""
  deriving Repr, DecidableEq

/-- Modelled from the spec: `ENI.ToResItems` (types package not under src);
one record item whose id is the ENI id. -/
def ENI.toResItems (e : ENI) : List ResourceItem :=
  [{ rtype := ResourceTypeENI, id := e.id }]

/-- Modelled from the spec: `ENIIP.ToResItems`; one item whose id is
formatted `"<eniID>.<ipv4>"` (spec section on GC route-rule cleanup). -/
def ENIIP.toResItems (e : ENIIP) : List ResourceItem :=
  [{ rtype := ResourceTypeENIIP, id := e.eni.id ++ "." ++ e.ipSet.ipv4 }]

/-- Modelled from the spec: `EIP.ToResItems`. -/
def EIP.toResItems (e : EIP) : List ResourceItem :=
  [{ rtype := ResourceTypeEIP, id := e.id }]

/-- Modelled from the spec: `Veth.ToResItems`. -/
def Veth.toResItems (v : Veth) : List ResourceItem :=
  [{ rtype := ResourceTypeVeth, id := v.hostVeth }]

/-- One allocation of a `PodENI` custom resource
(`podENITypes.Allocation`, fields as used by the daemon file). -/
structure PodENIAllocation where
  ipv4 : String := ""
  ipv6 : String := ""
  ipv4CIDR : String := ""
  ipv6CIDR : String := ""
  interface : String := ""
  extraRoutes : List RpcRoute := []
  defaultRoute : Bool := false
  eniID : String := ""
  eniMAC : String := ""
  deriving Repr, DecidableEq

/-- The `PodENI` custom resource as the daemon reads it: spec allocations
plus the reconciled status (trunk ENI id and per-ENI VLAN ids). -/
structure PodENICR where
  allocations : List PodENIAllocation := []
  trunkENIID : String := ""
  eniInfos : List (String × Nat) := []
  deriving Repr, DecidableEq

/-- Errors from the Kubernetes client: `notFound` is the class recognised
by `k8sErr.IsNotFound`; everything else is `other`.  Wrapping with
`fmt.Errorf %w` preserves the class, as `IsNotFound` unwraps. -/
inductive KErr where
  | notFound
  | other (msg : String)
  deriving Repr, DecidableEq

/-- Message wrapping of `fmt.Errorf("error wait pod eni info, %w", err)`:
the error class survives the wrap. -/
def KErr.wrapPodENI : KErr → KErr
  | .notFound => .notFound
  | .other m => .other ("error wait pod eni info, " ++ m)

/-- Rendering of a `KErr` when it is surfaced as a plain error string. -/
def KErr.message : KErr → String
  | .notFound => "not found"
  | .other m => m

/-- Static state of the network service that the handlers consult
(`networkService` fields; `trunkENI` is the trunk ENI cached by the
resource manager, `deriveGatewayIP` models `terwayIP.DeriveGatewayIP`
from the spec, since pkg/ip is not under src). -/
structure Env where
  daemonMode : String := ""
  eipMgrPresent : Bool := false
  enableTrunk : Bool := false
  ipamTypeCRD : Bool := false
  ipv4 : Bool := true
  ipv6 : Bool := false
  serviceCIDR : Option IPSet := none
  nodeCIDR : Option IPSet := none
  trunkENI : Option ENI := none
  deriveGatewayIP : String → String := fun _ => ""

/-- Go method `requestCRD`: fetches the PodENI custom resource when the
pod is in CRD mode (CRD IPAM, or the pod opted in with trunking enabled);
a PodENI without allocations is an error; otherwise absent CRD handling is
left to the caller.  `crdFetch` injects the result of
`WaitPodENIInfo`/`GetPodENIInfo`. -/
def requestCRD (env : Env) (podInfo : PodInfo) (crdFetch : Except KErr PodENICR)
    (waitReady : Bool) : Except KErr (Option PodENICR) :=
  if env.ipamTypeCRD || (podInfo.podENI && env.enableTrunk) then
    match crdFetch with
    | .error e => .error e
    | .ok podENI =>
      if podENI.allocations.length ≤ 0 then
        .error (.other "podENI has no allocation info")
      else
        .ok (some podENI)
  else
    .ok none

/-- Builds the `BasicInfo` IP sets of one CRD allocation, validating that
a non-empty address comes with a CIDR and a derivable gateway. -/
def crdAllocBasicInfo (env : Env) (alloc : PodENIAllocation) :
    Except KErr (IPSet × IPSet × IPSet) :=
  let podIP : IPSet := { ipv4 := alloc.ipv4, ipv6 := alloc.ipv6 }
  let cidr : IPSet := { ipv4 := if alloc.ipv4 ≠ "" then alloc.ipv4CIDR else "",
                        ipv6 := if alloc.ipv6 ≠ "" then alloc.ipv6CIDR else "" }
  let gw : IPSet := { ipv4 := if alloc.ipv4 ≠ "" then env.deriveGatewayIP alloc.ipv4CIDR else "",
                      ipv6 := if alloc.ipv6 ≠ "" then env.deriveGatewayIP alloc.ipv6CIDR else "" }
  if alloc.ipv4 ≠ "" && (cidr.ipv4 = "" || gw.ipv4 = "") then
    .error (.other "empty cidr or gateway")
  else if alloc.ipv6 ≠ "" && (cidr.ipv6 = "" || gw.ipv6 = "") then
    .error (.other "empty cidr or gateway")
  else
    .ok (podIP, cidr, gw)

/-- Per-allocation loop of `multiIPFromCRD`: every `NetConf` uses the MAC
and gateway of the node trunk ENI, the VLAN id comes from
`Status.ENIInfos`. -/
def multiIPConfLoop (env : Env) (nodeTrunkENI : ENI) (podEni : PodENICR) (podInfo : PodInfo) :
    List PodENIAllocation → Except KErr (List NetConf)
  | [] => .ok []
  | alloc :: rest =>
    match crdAllocBasicInfo env alloc with
    | .error e => .error e
    | .ok (podIP, cidr, gw) =>
      match podEni.eniInfos.lookup alloc.eniID with
      | none => .error (.other "error get podENI status")
      | some vid =>
        match multiIPConfLoop env nodeTrunkENI podEni podInfo rest with
        | .error e => .error e
        | .ok confs =>
          .ok ({ basicInfo := some { podIP := some podIP, podCIDR := some cidr,
                                     gatewayIP := some gw, serviceCIDR := env.serviceCIDR },
                 eniInfo := some { mac := nodeTrunkENI.mac, trunk := true, vid := vid,
                                   gatewayIP := some nodeTrunkENI.gatewayIP },
                 pod := some { ingress := podInfo.tcIngress, egress := podInfo.tcEgress,
                               networkPriority := podInfo.networkPriority },
                 ifName := alloc.interface,
                 extraRoutes := alloc.extraRoutes,
                 defaultRoute := alloc.defaultRoute } :: confs)

/-- Go method `multiIPFromCRD`: assembles the `NetConf` list of an
ENIMultiIP CRD-mode pod.  A pod outside CRD mode yields the empty list
(nil, nil in Go); the node trunk ENI must exist and match
`Status.TrunkENIID`. -/
def multiIPFromCRD (env : Env) (podInfo : PodInfo) (crdFetch : Except KErr PodENICR)
    (waitReady : Bool) : Except KErr (List NetConf) :=
  match requestCRD env podInfo crdFetch waitReady with
  | .error e => .error e.wrapPodENI
  | .ok none => .ok []
  | .ok (some podEni) =>
    match env.trunkENI with
    | none => .error (.other "pod status eni parent not match instance trunk eni")
    | some nodeTrunkENI =>
      if nodeTrunkENI.id ≠ podEni.trunkENIID then
        .error (.other "pod status eni parent not match instance trunk eni")
      else
        multiIPConfLoop env nodeTrunkENI podEni podInfo podEni.allocations

/-- Per-allocation loop of `exclusiveENIFromCRD`: without trunking the
`ENIInfo` carries the allocation ENI MAC; with trunking it carries the
trunk MAC, VLAN id and trunk gateway. -/
def exclusiveConfLoop (env : Env) (nodeTrunkENI : Option ENI) (podEni : PodENICR)
    (podInfo : PodInfo) : List PodENIAllocation → Except KErr (List NetConf)
  | [] => .ok []
  | alloc :: rest =>
    match crdAllocBasicInfo env alloc with
    | .error e => .error e
    | .ok (podIP, cidr, gw) =>
      let baseENIInfo : ENIInfo := { mac := alloc.eniMAC, trunk := false }
      let eniInfoRes : Except KErr ENIInfo :=
        if env.enableTrunk then
          match nodeTrunkENI with
          | none => .error (.other "error get podENI status")
          | some te =>
            match podEni.eniInfos.lookup alloc.eniID with
            | none => .error (.other "error get podENI status")
            | some vid =>
              .ok { mac := te.mac, trunk := true, vid := vid, gatewayIP := some te.gatewayIP }
        else
          .ok baseENIInfo
      match eniInfoRes with
      | .error e => .error e
      | .ok eniInfo =>
        match exclusiveConfLoop env nodeTrunkENI podEni podInfo rest with
        | .error e => .error e
        | .ok confs =>
          .ok ({ basicInfo := some { podIP := some podIP, podCIDR := some cidr,
                                     gatewayIP := some gw, serviceCIDR := env.serviceCIDR },
                 eniInfo := some eniInfo,
                 pod := some { ingress := podInfo.tcIngress, egress := podInfo.tcEgress,
                               networkPriority := podInfo.networkPriority },
                 ifName := alloc.interface,
                 extraRoutes := alloc.extraRoutes,
                 defaultRoute := alloc.defaultRoute } :: confs)

/-- Go method `exclusiveENIFromCRD`: assembles the `NetConf` list of an
exclusive-ENI CRD-mode pod; with trunking enabled the trunk ENI must
exist and match the status; finishes with `defaultForNetConf`. -/
def exclusiveENIFromCRD (env : Env) (podInfo : PodInfo) (crdFetch : Except KErr PodENICR)
    (waitReady : Bool) : Except KErr (List NetConf) :=
  match requestCRD env podInfo crdFetch waitReady with
  | .error e => .error e.wrapPodENI
  | .ok none =>
    -- with a nil PodENI the Go code would dereference a nil pointer below;
    -- this branch is unreachable from the call sites (ipamType is CRD there)
    .error (.other "nil podENI")
  | .ok (some podEni) =>
    let trunkCheck : Except KErr (Option ENI) :=
      if env.enableTrunk then
        match env.trunkENI with
        | none => .error (.other "pod status eni parent not match instance trunk eni")
        | some te =>
          if te.id ≠ podEni.trunkENIID then
            .error (.other "pod status eni parent not match instance trunk eni")
          else
            .ok (some te)
      else
        .ok none
    match trunkCheck with
    | .error e => .error e
    | .ok nodeTrunkENI =>
      match exclusiveConfLoop env nodeTrunkENI podEni podInfo podEni.allocations with
      | .error e => .error e
      | .ok netConf =>
        match defaultForNetConf netConf with
        | .error e => .error (.other e)
        | .ok netConf1 => .ok netConf1

/-- The gRPC release request (`rpc.ReleaseIPRequest`). -/
structure ReleaseIPRequest where
  k8sPodName : String := ""
  k8sPodNamespace : String := ""
  k8sPodInfraContainerId : String := ""
  deriving Repr, DecidableEq

/-- The gRPC release reply (`rpc.ReleaseIPReply`). -/
structure ReleaseIPReply where
  success : Bool := false
  ipv4 : Bool := false
  ipv6 : Bool := false
  deriving Repr, DecidableEq

/-- Observable outcome of one `ReleaseIP` call: the gRPC result, the store
afterwards, and the trace of manager `Release` calls in order. -/
structure ReleaseOut where
  result : Except String ReleaseIPReply
  store : Store
  released : List ResourceItem
  deriving DecidableEq

/-- Container-id guard of `ReleaseIP` and `GetIPInfo`: true when a stored
sandbox container id exists and differs from the one of the request. -/
def containerIDMismatch (stored : Option String) (reqID : String) : Bool :=
  match stored with
  | some cid => reqID ≠ cid
  | none => false

/-- Per-item loop of `ReleaseIP` (the `for _, res := range oldRes.Resources`
body): looks the manager up, and when `IPStickTime == 0` releases the item
(tolerating `ErrInvalidState`) and deletes the pod record.  Returns the
fatal error if any, the store, and the trace of `Release` calls made. -/
def releaseLoop (env : Env) (relOutcome : ResourceItem → ReleaseResult)
    (podinfo : PodInfo) (key : String) :
    List ResourceItem → Store → List ResourceItem →
    Option String × Store × List ResourceItem
  | [], s, trace => (none, s, trace)
  | res :: rest, s, trace =>
    if !(mgrForResourceExists env.daemonMode env.eipMgrPresent res.rtype) then
      releaseLoop env relOutcome podinfo key rest s trace
    else if podinfo.ipStickTime = 0 then
      match relOutcome res with
      | .failed msg =>
        (some ("error release request network resource: " ++ msg), s, trace ++ [res])
      | _ => releaseLoop env relOutcome podinfo key rest (storeDelete s key) (trace ++ [res])
    else
      releaseLoop env relOutcome podinfo key rest s trace

/-- Go handler `ReleaseIP` (after the pending-pod gate and the read lock,
with the pod snapshot already read from the Kubernetes cache).
`ctxErr` injects the state of the request context at the final
cancellation check. -/
def ReleaseIP (env : Env) (store : Store) (r : ReleaseIPRequest) (podinfo : PodInfo)
    (relOutcome : ResourceItem → ReleaseResult) (ctxErr : Option String) : ReleaseOut :=
  let key := podInfoKey r.k8sPodNamespace r.k8sPodName
  let releaseReply : ReleaseIPReply := { success := true, ipv4 := env.ipv4, ipv6 := env.ipv6 }
  let oldRes := getPodResource store podinfo
  if !(verifyPodNetworkType env.daemonMode podinfo.podNetworkType) then
    { result := .ok releaseReply, store := store, released := [] }
  else if containerIDMismatch oldRes.containerID r.k8sPodInfraContainerId then
    { result := .ok releaseReply, store := store, released := [] }
  else
    match releaseLoop env relOutcome podinfo key oldRes.resources store [] with
    | (some e, s1, trace) => { result := .error e, store := s1, released := trace }
    | (none, s1, trace) =>
      match ctxErr with
      | some e => { result := .error ("error on grpc connection, " ++ e), store := s1, released := trace }
      | none => { result := .ok releaseReply, store := s1, released := trace }

/-- The `rpc.IPType` enum values used by the daemon. -/
inductive IPType where
  | typeVPCIP
  | typeVPCENI
  | typeENIMultiIP
  deriving Repr, DecidableEq

/-- IPType value each switch branch assigns to the reply. -/
def ipTypeOf (podNetworkType : String) : IPType :=
  if podNetworkType = podNetworkTypeENIMultiIP then .typeENIMultiIP
  else if podNetworkType = podNetworkTypeVPCENI then .typeVPCENI
  else .typeVPCIP

/-- The gRPC allocation request (`rpc.AllocIPRequest`). -/
structure AllocIPRequest where
  k8sPodName : String := ""
  k8sPodNamespace : String := ""
  k8sPodInfraContainerId : String := ""
  netns : String := ""
  ifName : String := ""
  deriving Repr, DecidableEq

/-- The gRPC allocation reply (`rpc.AllocIPReply`). -/
structure AllocIPReply where
  ipType : IPType := .typeVPCIP
  ipv4 : Bool := false
  ipv6 : Bool := false
  success : Bool := false
  netConfs : List NetConf := []
  enableTrunking : Bool := false
  deriving Repr, DecidableEq

/-- Injected outcomes of the external calls an `AllocIP` request makes:
the CRD fetch, each manager allocation, and the request-context state at
the final cancellation check. -/
structure AllocOutcomes where
  crdFetch : Except KErr PodENICR := .error .notFound
  eniIPAlloc : Except String ENIIP := .error ""
  eipAlloc : Except String EIP := .error ""
  eniAlloc : Except String ENI := .error ""
  vethAlloc : Except String Veth := .error ""
  ctxErr : Option String := none

/-- The default-route `NetConf` that the ENIMultiIP branch appends when the
CRD produced no default interface. -/
def eniIPDefaultConf (env : Env) (podinfo : PodInfo) (eniIP : ENIIP) : NetConf :=
  { basicInfo := some { podIP := some eniIP.ipSet, podCIDR := some eniIP.eni.vswitchCIDR,
                        gatewayIP := some eniIP.eni.gatewayIP, serviceCIDR := env.serviceCIDR },
    eniInfo := some { mac := eniIP.eni.mac, trunk := false },
    pod := some { ingress := podinfo.tcIngress, egress := podinfo.tcEgress,
                  networkPriority := podinfo.networkPriority },
    ifName := "",
    extraRoutes := [],
    defaultRoute := true }

/-- The `NetConf` of an exclusive ENI allocated from the pool
(VPCENI branch of `AllocIP`). -/
def eniDefaultConf (env : Env) (podinfo : PodInfo) (eni : ENI) : NetConf :=
  { basicInfo := some { podIP := some eni.primaryIP, podCIDR := some eni.vswitchCIDR,
                        gatewayIP := some eni.gatewayIP, serviceCIDR := env.serviceCIDR },
    eniInfo := some { mac := eni.mac, trunk := false },
    pod := some { ingress := podinfo.tcIngress, egress := podinfo.tcEgress,
                  networkPriority := podinfo.networkPriority },
    ifName := "",
    extraRoutes := [],
    defaultRoute := true }

/-- The `NetConf` of a VPCIP pod: no cloud interface, the pod CIDR comes
from the node. -/
def vpcIPConf (env : Env) (podinfo : PodInfo) : NetConf :=
  { basicInfo := some { podIP := none, podCIDR := env.nodeCIDR,
                        gatewayIP := none, serviceCIDR := env.serviceCIDR },
    eniInfo := none,
    pod := some { ingress := podinfo.tcIngress, egress := podinfo.tcEgress,
                  networkPriority := podinfo.networkPriority },
    ifName := "",
    extraRoutes := [],
    defaultRoute := true }

/-- Result of the per-type branch of `AllocIP`: the netConf list or an
error, the store after the branch, and the resource items recorded in the
request context (`networkContext.resources`). -/
def AllocBranchOut := Except String (List NetConf) × Store × List ResourceItem

/-- ENIMultiIP branch of `AllocIP`: CRD netConfs first; when they contain
no default interface, allocates one ENI-IP (and the EIP if asked for),
persists the record, appends the default-route conf, and runs
`defaultForNetConf`. -/
def allocENIMultiIPBranch (env : Env) (o : AllocOutcomes) (store : Store)
    (r : AllocIPRequest) (podinfo : PodInfo) (key : String) : AllocBranchOut :=
  match multiIPFromCRD env podinfo o.crdFetch true with
  | .error e => (.error e.message, store, [])
  | .ok netConfs =>
    let netConf := netConfs
    let defaultIfSet := netConf.any (fun cfg => defaultIf cfg.ifName)
    if defaultIfSet then
      (defaultForNetConf netConf, store, [])
    else
      match o.eniIPAlloc with
      | .error e => (.error ("error get allocated eniip ip, result: " ++ e), store, [])
      | .ok eniIP =>
        let items := eniIP.toResItems
        if env.eipMgrPresent && podinfo.podEip then
          let podinfo1 := { podinfo with podIPs := eniIP.ipSet }
          match o.eipAlloc with
          | .error e => (.error ("error get allocated eip, result: " ++ e), store, items)
          | .ok eipRes =>
            let eipItems := eipRes.toResItems
            let newRes : PodResources :=
              { podInfo := podinfo1, resources := items ++ eipItems,
                netNs := some r.netns, containerID := some r.k8sPodInfraContainerId }
            let store1 := storePut store key newRes
            (defaultForNetConf (netConf ++ [eniIPDefaultConf env podinfo1 eniIP]),
             store1, items ++ eipItems)
        else
          let newRes : PodResources :=
            { podInfo := podinfo, resources := items,
              netNs := some r.netns, containerID := some r.k8sPodInfraContainerId }
          let store1 := storePut store key newRes
          (defaultForNetConf (netConf ++ [eniIPDefaultConf env podinfo eniIP]), store1, items)

/-- VPCENI branch of `AllocIP`: under CRD IPAM only the CRD assembly; else
one exclusive ENI (and the EIP if asked for) with persistence. -/
def allocVPCENIBranch (env : Env) (o : AllocOutcomes) (store : Store)
    (r : AllocIPRequest) (podinfo : PodInfo) (key : String) : AllocBranchOut :=
  if env.ipamTypeCRD then
    match exclusiveENIFromCRD env podinfo o.crdFetch true with
    | .error e => (.error e.message, store, [])
    | .ok netConfs => (.ok netConfs, store, [])
  else
    match o.eniAlloc with
    | .error e => (.error ("error get allocated vpc ENI ip, result: " ++ e), store, [])
    | .ok eni =>
      let items := eni.toResItems
      if env.eipMgrPresent && podinfo.podEip then
        let podinfo1 := { podinfo with podIPs := eni.primaryIP }
        match o.eipAlloc with
        | .error e => (.error ("error get allocated eip, result: " ++ e), store, items)
        | .ok eipRes =>
          let eipItems := eipRes.toResItems
          let newRes : PodResources :=
            { podInfo := podinfo1, resources := items ++ eipItems,
              netNs := some r.netns, containerID := some r.k8sPodInfraContainerId }
          let store1 := storePut store key newRes
          (.ok [eniDefaultConf env podinfo1 eni], store1, items ++ eipItems)
      else
        let newRes : PodResources :=
          { podInfo := podinfo, resources := items,
            netNs := some r.netns, containerID := some r.k8sPodInfraContainerId }
        let store1 := storePut store key newRes
        (.ok [eniDefaultConf env podinfo eni], store1, items)

/-- VPCIP branch of `AllocIP`: one veth, persisted, pod CIDR from the
node. -/
def allocVPCIPBranch (env : Env) (o : AllocOutcomes) (store : Store)
    (r : AllocIPRequest) (podinfo : PodInfo) (key : String) : AllocBranchOut :=
  match o.vethAlloc with
  | .error e => (.error ("error get allocated vpc ip, result: " ++ e), store, [])
  | .ok vpcVeth =>
    let items := vpcVeth.toResItems
    let newRes : PodResources :=
      { podInfo := podinfo, resources := items,
        netNs := some r.netns, containerID := some r.k8sPodInfraContainerId }
    let store1 := storePut store key newRes
    (.ok [vpcIPConf env podinfo], store1, items)

/-- Result of the `AllocIP` body before the deferred rollback runs. -/
structure AllocCoreOut where
  result : Except String AllocIPReply
  store : Store
  recorded : List ResourceItem

/-- Body of the Go handler `AllocIP` (after the pending-pod gate, the read
lock and the pod read): network-type validation, the per-type switch, the
context cancellation check, and the reply. -/
def allocCore (env : Env) (o : AllocOutcomes) (store : Store)
    (r : AllocIPRequest) (podinfo : PodInfo) : AllocCoreOut :=
  let key := podInfoKey podinfo.ns podinfo.name
  if !(verifyPodNetworkType env.daemonMode podinfo.podNetworkType) then
    { result := .error "unexpect pod network type allocate, maybe daemon mode changed",
      store := store, recorded := [] }
  else
    let branch : AllocBranchOut :=
      if podinfo.podNetworkType = podNetworkTypeENIMultiIP then
        allocENIMultiIPBranch env o store r podinfo key
      else if podinfo.podNetworkType = podNetworkTypeVPCENI then
        allocVPCENIBranch env o store r podinfo key
      else if podinfo.podNetworkType = podNetworkTypeVPCIP then
        allocVPCIPBranch env o store r podinfo key
      else
        (.error "not support pod network type", store, [])
    match branch with
    | (.error e, s1, recorded) => { result := .error e, store := s1, recorded := recorded }
    | (.ok netConf, s1, recorded) =>
      match o.ctxErr with
      | some e =>
        { result := .error ("error on grpc connection, " ++ e), store := s1, recorded := recorded }
      | none =>
        { result := .ok { ipType := ipTypeOf podinfo.podNetworkType, ipv4 := env.ipv4,
                          ipv6 := env.ipv6, success := true, netConfs := netConf,
                          enableTrunking := env.enableTrunk },
          store := s1, recorded := recorded }

/-- The deferred rollback of `AllocIP`: for every recorded item, delete the
pod record from the store, then call the manager Release when the manager
exists; release errors are logged only.  Returns the store and the trace
of Release calls. -/
def rollback (env : Env) (key : String) :
    List ResourceItem → Store → List ResourceItem → Store × List ResourceItem
  | [], s, rel => (s, rel)
  | res :: rest, s, rel =>
    let s1 := storeDelete s key
    if mgrForResourceExists env.daemonMode env.eipMgrPresent res.rtype then
      rollback env key rest s1 (rel ++ [res])
    else
      rollback env key rest s1 rel

/-- Observable outcome of one `AllocIP` call: gRPC result, store
afterwards, the items recorded in the request context, and the trace of
rollback Release calls. -/
structure AllocOut where
  result : Except String AllocIPReply
  store : Store
  recorded : List ResourceItem
  released : List ResourceItem

/-- Go handler `AllocIP`: the body plus the deferred rollback, which runs
exactly when the body produced an error and only logs its own failures, so
the surfaced error is always the one of the body. -/
def AllocIP (env : Env) (o : AllocOutcomes) (store : Store)
    (r : AllocIPRequest) (podinfo : PodInfo) : AllocOut :=
  let key := podInfoKey podinfo.ns podinfo.name
  let core := allocCore env o store r podinfo
  match core.result with
  | .error e =>
    let rb := rollback env key core.recorded core.store []
    { result := .error e, store := rb.1, recorded := core.recorded, released := rb.2 }
  | .ok rep =>
    { result := .ok rep, store := core.store, recorded := core.recorded, released := [] }

/-- The `rpc.Error` codes the daemon uses in `GetInfoReply`; the zero
value `errNoErr` is what an untouched reply carries. -/
inductive RpcErrorCode where
  | errNoErr
  | errCRDNotFound
  deriving Repr, DecidableEq

/-- The gRPC info request (`rpc.GetInfoRequest`). -/
structure GetInfoRequest where
  k8sPodName : String := ""
  k8sPodNamespace : String := ""
  k8sPodInfraContainerId : String := ""
  deriving Repr, DecidableEq

/-- The gRPC info reply (`rpc.GetInfoReply`). -/
structure GetInfoReply where
  error : RpcErrorCode := .errNoErr
  ipType : IPType := .typeVPCIP
  ipv4 : Bool := false
  ipv6 : Bool := false
  netConfs : List NetConf := []
  enableTrunking : Bool := false
  deriving Repr, DecidableEq

/-- Injected outcomes of the external calls a `GetIPInfo` request makes:
the CRD fetch and the manager `Stat` reads. -/
structure InfoOutcomes where
  crdFetch : Except KErr PodENICR := .error .notFound
  statENIIP : Except String ENIIP := .error ""
  statENI : Except String ENI := .error ""

/-- The `NetConf` that the ENIMultiIP info branch builds from a stored
ENI-IP via `Stat`; the struct literal in Go leaves `DefaultRoute` at its
zero value false. -/
def eniIPStatConf (env : Env) (podinfo : PodInfo) (eniIP : ENIIP) : NetConf :=
  { basicInfo := some { podIP := some eniIP.ipSet, podCIDR := some eniIP.eni.vswitchCIDR,
                        gatewayIP := some eniIP.eni.gatewayIP, serviceCIDR := env.serviceCIDR },
    eniInfo := some { mac := eniIP.eni.mac, trunk := false },
    pod := some { ingress := podinfo.tcIngress, egress := podinfo.tcEgress,
                  networkPriority := podinfo.networkPriority },
    ifName := "",
    extraRoutes := [],
    defaultRoute := false }

/-- The `NetConf` that the VPCENI info branch builds from a stored ENI via
`Stat`. -/
def eniStatConf (env : Env) (podinfo : PodInfo) (eni : ENI) : NetConf :=
  { basicInfo := some { podIP := some eni.primaryIP, podCIDR := some eni.vswitchCIDR,
                        gatewayIP := some eni.gatewayIP, serviceCIDR := env.serviceCIDR },
    eniInfo := some { mac := eni.mac,
                      trunk := podinfo.podENI && env.enableTrunk && eni.trunk },
    pod := some { ingress := podinfo.tcIngress, egress := podinfo.tcEgress,
                  networkPriority := podinfo.networkPriority },
    ifName := "",
    extraRoutes := [],
    defaultRoute := true }

/-- The bare `NetConf` of the VPCIP info branch (`IfName` and `ENIInfo`
are left at their zero values in the Go struct literal). -/
def vpcIPInfoConf (env : Env) (podinfo : PodInfo) : NetConf :=
  { basicInfo := some { podIP := none, podCIDR := env.nodeCIDR,
                        gatewayIP := none, serviceCIDR := env.serviceCIDR },
    eniInfo := none,
    pod := some { ingress := podinfo.tcIngress, egress := podinfo.tcEgress,
                  networkPriority := podinfo.networkPriority },
    ifName := "",
    extraRoutes := [],
    defaultRoute := true }

/-- Go handler `GetIPInfo` (after the pod read): a strict read path over
the store, the CRD, and the manager `Stat` calls.  In the ENIMultiIP
branch the Go source assigns the CRD error to `err2` but then tests
`err`, which is nil at that point, so the `ErrCRDNotFound` branch is dead
and the handler falls through with an empty conf list; the model keeps
that behaviour. -/
def GetIPInfo (env : Env) (store : Store) (r : GetInfoRequest) (podinfo : PodInfo)
    (o : InfoOutcomes) : Except String GetInfoReply :=
  if !(verifyPodNetworkType env.daemonMode podinfo.podNetworkType) then
    .error "unexpect pod network type get info, maybe daemon mode changed"
  else
    let podRes := getPodResource store podinfo
    let emptyReply : GetInfoReply := { ipv4 := env.ipv4, ipv6 := env.ipv6 }
    if containerIDMismatch podRes.containerID r.k8sPodInfraContainerId then
      .ok emptyReply
    else if podinfo.podNetworkType = podNetworkTypeENIMultiIP then
      -- netConfs, err2 := n.multiIPFromCRD(podinfo, false); the guard
      -- tests err, not err2, and err is nil here, so a CRD error is
      -- swallowed and netConfs stays nil
      let netConfs : List NetConf :=
        match multiIPFromCRD env podinfo o.crdFetch false with
        | .ok confs => confs
        | .error _ => []
      let defaultIfSet := netConfs.any (fun cfg => defaultIf cfg.ifName)
      let netConf :=
        if defaultIfSet then
          netConfs
        else
          match podRes.getResourceItemByType ResourceTypeENIIP with
          | [] => netConfs
          | _ :: _ =>
            match o.statENIIP with
            | .ok eniIP => netConfs ++ [eniIPStatConf env podinfo eniIP]
            | .error _ => netConfs
      match defaultForNetConf netConf with
      | .error e => .error e
      | .ok netConf1 =>
        .ok { emptyReply with ipType := .typeENIMultiIP, netConfs := netConf1,
                              enableTrunking := env.enableTrunk }
    else if podinfo.podNetworkType = podNetworkTypeVPCIP then
      .ok { emptyReply with ipType := .typeVPCIP, netConfs := [vpcIPInfoConf env podinfo],
                            enableTrunking := env.enableTrunk }
    else if podinfo.podNetworkType = podNetworkTypeVPCENI then
      if env.ipamTypeCRD then
        match exclusiveENIFromCRD env podinfo o.crdFetch false with
        | .error e =>
          if e = .notFound then
            .ok { emptyReply with ipType := .typeVPCENI, error := .errCRDNotFound }
          else
            .ok { emptyReply with ipType := .typeVPCENI }
        | .ok netConfs =>
          .ok { emptyReply with ipType := .typeVPCENI, netConfs := netConfs,
                                enableTrunking := env.enableTrunk }
      else
        let netConf :=
          match podRes.getResourceItemByType ResourceTypeENI with
          | [] => []
          | _ :: _ =>
            match o.statENI with
            | .ok eni => [eniStatConf env podinfo eni]
            | .error _ => []
        .ok { emptyReply with ipType := .typeVPCENI, netConfs := netConf,
                              enableTrunking := env.enableTrunk }
    else
      .error "unknown or unsupport network type"

/-- State threaded through one garbage-collection tick: the in-use and
expired (type, id) sets, the set of resource types seen (the keys of the
Go `inUseSet`/`expireSet` outer maps, in creation order), the keys of the
expired records, and the store. -/
structure GCState where
  inUse : List (String × String) := []
  expire : List (String × String) := []
  typesSeen : List String := []
  relateExpire : List String := []
  store : Store := []
  deriving DecidableEq

/-- Map-style insertion into a (type, id) set. -/
def pairInsert (l : List (String × String)) (p : String × String) : List (String × String) :=
  if p ∈ l then l else l ++ [p]

/-- Map-style deletion from a (type, id) set. -/
def pairErase (l : List (String × String)) (p : String × String) : List (String × String) :=
  l.filter (fun q => q ≠ p)

/-- Creation of the per-type inner maps on first sight of a type
(`inUseSet[res.Type]` and `expireSet[res.Type]` are created together). -/
def seeType (st : GCState) (t : String) : GCState :=
  if t ∈ st.typesSeen then st else { st with typesSeen := st.typesSeen ++ [t] }

/-- Inner loop of a GC tick over the resources of one record: an id
already in use stays in use; a resource of a live (or sticky-deferred)
pod moves from the expire set to the in-use set; a resource of an absent
pod joins the expire set. -/
def gcResources (podExist : Bool) : List ResourceItem → GCState → GCState
  | [], st => st
  | res :: rest, st =>
    let st := seeType st res.rtype
    if (res.rtype, res.id) ∈ st.inUse then
      gcResources podExist rest st
    else if podExist then
      gcResources podExist rest
        { st with expire := pairErase st.expire (res.rtype, res.id),
                  inUse := st.inUse ++ [(res.rtype, res.id)] }
    else
      gcResources podExist rest { st with expire := pairInsert st.expire (res.rtype, res.id) }

/-- The store key of a record, recomputed from its own pod info (the GC
loop calls `podInfoKey` on the record fields). -/
def recKey (rec : PodResources) : String :=
  podInfoKey rec.podInfo.ns rec.podInfo.name

/-- The sticky downgrade: the same record with `IPStickTime = 0`. -/
def stickZero (rec : PodResources) : PodResources :=
  { rec with podInfo := { rec.podInfo with ipStickTime := 0 } }

/-- Outer loop body of a GC tick over one stored record: an absent pod
with a non-zero `IPStickTime` has its record rewritten with
`IPStickTime = 0` and counts as present this cycle; an absent non-sticky
pod joins the expire list. -/
def gcRecord (live : List String) (st : GCState) (rec : PodResources) : GCState :=
  if recKey rec ∈ live then
    gcResources true rec.resources st
  else if rec.podInfo.ipStickTime ≠ 0 then
    gcResources true (stickZero rec).resources
      { st with store := storePut st.store (recKey rec) (stickZero rec) }
  else
    gcResources false rec.resources
      { st with relateExpire := st.relateExpire ++ [recKey rec] }

/-- The characters after the first occurrence of the separator, if any
(over the character list of the string). -/
def afterFirstSep (sep : Char) : List Char → Option (List Char)
  | [] => none
  | c :: cs => if c = sep then some cs else afterFirstSep sep cs

/-- Go `strings.SplitAfterN(resID, ".", 2)`: none when there is no dot
(the Go slice then has a single element), otherwise the part after the
first dot. -/
def splitAfterFirstDot (s : String) : Option String :=
  (afterFirstSep (Char.ofNat 46) s.toList).map String.mk

/-- String split on a separator character, over character lists. -/
def splitOnSep (sep : Char) : List Char → List Char → List (List Char)
  | [], acc => [acc.reverse]
  | c :: cs, acc =>
    if c = sep then acc.reverse :: splitOnSep sep cs []
    else splitOnSep sep cs (c :: acc)

/-- One dotted-decimal field of an IPv4 address: decimal digits, at most
three, no leading zero, value at most 255. -/
def parseIPv4Field (s : List Char) : Option Nat :=
  if s.length = 0 || s.length > 3 then none
  else if !(s.all Char.isDigit) then none
  else if s.length > 1 && s.headD (Char.ofNat 48) = Char.ofNat 48 then none
  else
    let n := s.foldl (fun n c => n * 10 + (c.toNat - 48)) 0
    if n ≤ 255 then some n else none

/-- Model of a successful `net.ParseCIDR(ip ++ "/32")` on the IPv4 ids the
GC cleanup handles: a dotted quad.  (The Go function also accepts IPv6
text; the record ids this loop parses are formatted `<eniID>.<ipv4>`.) -/
def parseIPv4 (s : String) : Option (Nat × Nat × Nat × Nat) :=
  match splitOnSep (Char.ofNat 46) s.toList [] with
  | [a, b, c, d] =>
    match parseIPv4Field a, parseIPv4Field b, parseIPv4Field c, parseIPv4Field d with
    | some x, some y, some z, some w => some (x, y, z, w)
    | _, _, _, _ => none
  | _ => none

/-- The post-GC route-rule cleanup loop over the expired ENI-IP ids: an id
without a dot is skipped with a debug log (`continue`); an id whose IP
part does not parse makes the anonymous function return, which ends the
whole loop; a parsed ip has its rules and routes deleted best-effort
(collected in the result). -/
def gcCleanupLoop : List String → List String → List String
  | [], cleaned => cleaned
  | resID :: rest, cleaned =>
    match splitAfterFirstDot resID with
    | none => gcCleanupLoop rest cleaned
    | some ipPart =>
      match parseIPv4 ipPart with
      | none => cleaned
      | some _ => gcCleanupLoop rest (cleaned ++ [ipPart])

/-- The expired ENI-IP ids in insertion order (the Go code iterates the
`expireSet[types.ResourceTypeENIIP]` map; the model fixes the iteration
order to insertion order). -/
def expireENIIPIds (expire : List (String × String)) : List String :=
  (expire.filter (fun p => p.1 = ResourceTypeENIIP)).map (fun p => p.2)

/-- The scan phase of a GC tick: fold `gcRecord` over the snapshot of the
stored records (the Go code lists the store once and then mutates it). -/
def gcScan (live : List String) (store : Store) : GCState :=
  store.foldl (fun st kv => gcRecord live st kv.2) { store := store }

/-- The (type, id) pairs of the resources of one record, as they enter
the in-use and expire sets. -/
def recPairs (rec : PodResources) : List (String × String) :=
  rec.resources.map (fun r => (r.rtype, r.id))

/-- A concrete sticky record used as a witness input. -/
def sampleStickyRec : PodResources :=
  { podInfo := { ns := "default", name := "x", ipStickTime := 300 },
    resources := [{ rtype := ResourceTypeENIIP, id := "eni-1.10.0.0.9" }] }

/-- A concrete one-record store used as a witness input. -/
def sampleStickyStore : Store := [("default/x", sampleStickyRec)]

/-- Observable outcome of one GC tick. -/
structure GCOut where
  store : Store
  inUse : List (String × String)
  expire : List (String × String)
  relateExpire : List String
  typesSeen : List String
  gcDone : Bool
  cleaned : List String
  deriving DecidableEq

/-- One tick of `startGarbageCollectionLoop`: classify every stored record
against the live pod set, run each seen type manager `GarbageCollection`
(`mgrPresent` is membership in `mgrForResource`, `mgrGCOk` the per-type
success), and only when all managers succeeded run the ENI-IP route-rule
cleanup and delete the expired records. -/
def gcTick (live : List String) (store : Store)
    (mgrPresent : String → Bool) (mgrGCOk : String → Bool) : GCOut :=
  let st := gcScan live store
  let gcDone := st.typesSeen.all (fun t => !(mgrPresent t && !(mgrGCOk t)))
  let cleaned :=
    if gcDone && st.typesSeen.contains ResourceTypeENIIP then
      gcCleanupLoop (expireENIIPIds st.expire) []
    else
      []
  let store1 :=
    if gcDone then st.relateExpire.foldl storeDelete st.store else st.store
  { store := store1, inUse := st.inUse, expire := st.expire,
    relateExpire := st.relateExpire, typesSeen := st.typesSeen,
    gcDone := gcDone, cleaned := cleaned }

/-- One row of the three-way resource mapping (`tracing.PodMapping`). -/
structure PodMapping where
  name : String := ""
  ns : String := ""
  localResID : String := ""
  remoteResID : String := ""
  podBindResID : String := ""
  valid : Bool := false
  deriving Repr, DecidableEq

/-- Update-or-insert on the `all` association list keyed by resource id
(the Go map, with iteration fixed to insertion order). -/
def mappingUpsert (all : List (String × PodMapping)) (key : String)
    (ifAbsent : PodMapping) (update : PodMapping → PodMapping) :
    List (String × PodMapping) :=
  if all.any (fun kv => kv.1 = key) then
    all.map (fun kv => if kv.1 = key then (kv.1, update kv.2) else kv)
  else
    all ++ [(key, ifAbsent)]

/-- First pass of `toResMapping`: the pool-local resource ids. -/
def mappingLocalPass (all : List (String × PodMapping)) (localIDs : List String) :
    List (String × PodMapping) :=
  localIDs.foldl (fun all id =>
    mappingUpsert all id { localResID := id } (fun old => { old with localResID := id })) all

/-- Second pass of `toResMapping`: the cloud-remote resource ids. -/
def mappingRemotePass (all : List (String × PodMapping)) (remoteIDs : List String) :
    List (String × PodMapping) :=
  remoteIDs.foldl (fun all id =>
    mappingUpsert all id { remoteResID := id } (fun old => { old with remoteResID := id })) all

/-- Pod-binding update of one resource of one record: names and
`PodBindResID` are written, and `Valid` is set when all three ids agree. -/
def mappingPodUpdate (p : PodResources) (resID : String) (old : PodMapping) : PodMapping :=
  let old := { old with name := p.podInfo.name, ns := p.podInfo.ns, podBindResID := resID }
  if old.podBindResID = old.localResID ∧ old.localResID = old.remoteResID then
    { old with valid := true }
  else
    old

/-- Third pass of `toResMapping`: the store bindings; EIP items are
excluded from the join. -/
def mappingPodPass (all : List (String × PodMapping)) (pods : List PodResources) :
    List (String × PodMapping) :=
  pods.foldl (fun all p =>
    p.resources.foldl (fun all res =>
      if res.rtype = ResourceTypeEIP then
        all
      else
        mappingUpsert all res.id
          { name := p.podInfo.name, ns := p.podInfo.ns, podBindResID := res.id }
          (mappingPodUpdate p res.id)) all) all

/-- Final pass of `toResMapping`: an entry bound to no pod whose local and
remote ids agree is valid (idle). -/
def mappingIdlePass (all : List (String × PodMapping)) : List PodMapping :=
  all.map (fun kv =>
    if kv.2.name = "" ∧ kv.2.localResID = kv.2.remoteResID then
      { kv.2 with valid := true }
    else
      kv.2)

/-- The sort order of the mapping rows: name descending, then remote id
ascending (the Go `sort.Slice` less function, made non-strict and total
for `mergeSort`; the Go sort is unstable, so only sortedness is
observable). -/
def mappingLE (a b : PodMapping) : Bool :=
  if a.name = b.name then decide (a.remoteResID ≤ b.remoteResID)
  else decide (b.name < a.name)

/-- Go function `toResMapping`: the three-way join of pool-local, remote
and pod-bound resources, keyed by resource id, followed by the idle pass
and the sort. -/
def toResMapping (localIDs remoteIDs : List String) (pods : List PodResources) :
    List PodMapping :=
  let all : List (String × PodMapping) := []
  let all := mappingLocalPass all localIDs
  let all := mappingRemotePass all remoteIDs
  let all := mappingPodPass all pods
  (mappingIdlePass all).mergeSort mappingLE

/-- Invariant of the join states of `toResMapping`, keyed by the resource
id of the entry: an entry not yet bound to a pod has empty name, empty
binding, `Valid` unset, and local and remote ids that are empty or the
key. -/
def mappingInvIdle (key : String) (m : PodMapping) : Prop :=
  m.name = "" ∧ m.podBindResID = "" ∧ m.valid = false ∧
    (m.localResID = "" ∨ m.localResID = key) ∧
    (m.remoteResID = "" ∨ m.remoteResID = key)

/-- Invariant of the join states of `toResMapping`: an entry bound to a
pod has a pod name, the key as binding, and `Valid` exactly when local
and remote ids both equal the key. -/
def mappingInvBound (key : String) (m : PodMapping) : Prop :=
  m.name ≠ "" ∧ m.podBindResID = key ∧ key ≠ "" ∧
    (m.localResID = "" ∨ m.localResID = key) ∧
    (m.remoteResID = "" ∨ m.remoteResID = key) ∧
    (m.valid = true ↔ m.localResID = key ∧ m.remoteResID = key)

/-- Invariant of the join states of `toResMapping`: idle or bound. -/
def mappingInv (key : String) (m : PodMapping) : Prop :=
  mappingInvIdle key m ∨ mappingInvBound key m

/-- A sample pod record used to instantiate the mapping-join theorem. -/
def sampleJoinPod : PodResources :=
  { podInfo := { ns := "default", name := "pod-a" },
    resources := [{ rtype := ResourceTypeENIIP, id := "b" }] }

/-- The mapping row the sample join produces for resource id `b`. -/
def sampleJoinMember : PodMapping :=
  { name := "pod-a", ns := "default", localResID := "b", remoteResID := "b",
    podBindResID := "b", valid := true }

/-! ### Lemmas about `defaultForNetConf` -/

/-- Scan with the default-route flag already set and no further default
route in the list. -/
theorem defaultForNetConfScan_true_ok (l : List NetConf) :
    ∀ is : Bool, l.countP (fun c => c.defaultRoute) = 0 →
    defaultForNetConfScan l true is =
      .ok (true, is || l.any (fun c => defaultIf c.ifName)) := by
  induction l with
  | nil => intro is h; simp [defaultForNetConfScan]
  | cons c rest ih =>
    intro is h
    rw [List.countP_cons] at h
    have hc : c.defaultRoute = false := by
      cases hc : c.defaultRoute
      · rfl
      · rw [hc] at h; simp at h
    rw [hc, if_neg (by decide), Nat.add_zero] at h
    rw [defaultForNetConfScan, if_neg (by simp [hc]), hc]
    rw [show (true || false) = true from rfl, ih (is || defaultIf c.ifName) (by omega)]
    simp [hc, Bool.or_assoc]

/-- Scan with the flag clear and at most one default route in the list. -/
theorem defaultForNetConfScan_false_ok (l : List NetConf) :
    ∀ is : Bool, l.countP (fun c => c.defaultRoute) ≤ 1 →
    defaultForNetConfScan l false is =
      .ok (l.any (fun c => c.defaultRoute), is || l.any (fun c => defaultIf c.ifName)) := by
  induction l with
  | nil => intro is h; simp [defaultForNetConfScan]
  | cons c rest ih =>
    intro is h
    rw [List.countP_cons] at h
    rw [defaultForNetConfScan, if_neg (by simp)]
    cases hc : c.defaultRoute with
    | false =>
      rw [hc, if_neg (by decide), Nat.add_zero] at h
      rw [show (false || false) = false from rfl,
        ih (is || defaultIf c.ifName) (by omega)]
      simp [hc, Bool.or_assoc]
    | true =>
      rw [hc, if_pos rfl] at h
      rw [show (false || true) = true from rfl,
        defaultForNetConfScan_true_ok rest (is || defaultIf c.ifName) (by omega)]
      simp [hc, Bool.or_assoc]

/-- Scan failure with the flag set and a default route in the list. -/
theorem defaultForNetConfScan_true_error (l : List NetConf) :
    ∀ is : Bool, 1 ≤ l.countP (fun c => c.defaultRoute) →
    ∃ e, defaultForNetConfScan l true is = .error e := by
  induction l with
  | nil => intro is h; simp at h
  | cons c rest ih =>
    intro is h
    rw [List.countP_cons] at h
    cases hc : c.defaultRoute with
    | true =>
      refine ⟨"default route is dumplicated", ?_⟩
      rw [defaultForNetConfScan, if_pos (by simp [hc])]
    | false =>
      rw [hc, if_neg (by decide), Nat.add_zero] at h
      rw [defaultForNetConfScan, if_neg (by simp [hc]), hc]
      rw [show (true || false) = true from rfl]
      exact ih (is || defaultIf c.ifName) (by omega)

/-- Scan failure with the flag clear and two default routes in the list. -/
theorem defaultForNetConfScan_false_error (l : List NetConf) :
    ∀ is : Bool, 2 ≤ l.countP (fun c => c.defaultRoute) →
    ∃ e, defaultForNetConfScan l false is = .error e := by
  induction l with
  | nil => intro is h; simp at h
  | cons c rest ih =>
    intro is h
    rw [List.countP_cons] at h
    rw [defaultForNetConfScan, if_neg (by simp)]
    cases hc : c.defaultRoute with
    | false =>
      rw [hc, if_neg (by decide), Nat.add_zero] at h
      rw [show (false || false) = false from rfl]
      exact ih (is || defaultIf c.ifName) (by omega)
    | true =>
      rw [hc, if_pos rfl] at h
      rw [show (false || true) = true from rfl]
      exact defaultForNetConfScan_true_error rest (is || defaultIf c.ifName) (by omega)

/-- Decomposition of `markFirstDefault` around the first default-interface
entry. -/
theorem markFirstDefault_split (l : List NetConf) (hex : ∃ c ∈ l, defaultIf c.ifName = true) :
    ∃ pre c suf, l = pre ++ c :: suf ∧ (∀ x ∈ pre, defaultIf x.ifName = false) ∧
      defaultIf c.ifName = true ∧
      markFirstDefault l = pre ++ { c with defaultRoute := true } :: suf := by
  induction l with
  | nil => simp at hex
  | cons c rest ih =>
    by_cases hc : defaultIf c.ifName = true
    · refine ⟨[], c, rest, by simp, by simp, hc, ?_⟩
      rw [markFirstDefault]
      have : (c.ifName = "" || c.ifName = IfEth0) = true := by
        simpa [defaultIf] using hc
      simp [this]
    · have hrest : ∃ x ∈ rest, defaultIf x.ifName = true := by
        rcases hex with ⟨x, hx, hdx⟩
        rcases List.mem_cons.mp hx with h | h
        · exact absurd (h ▸ hdx) hc
        · exact ⟨x, h, hdx⟩
      rcases ih hrest with ⟨pre, d, suf, heq, hpre, hd, hmark⟩
      refine ⟨c :: pre, d, suf, by simp [heq], ?_, hd, ?_⟩
      · intro x hx
        rcases List.mem_cons.mp hx with h | h
        · subst h; revert hc; cases defaultIf x.ifName <;> simp
        · exact hpre x h
      · rw [markFirstDefault]
        have : (c.ifName = "" || c.ifName = IfEth0) = false := by
          revert hc; simp [defaultIf]
        simp [this, hmark]

/-- C2 counterexample: on the empty `NetConf` list no entry has a
default-interface name, yet `defaultForNetConf` returns success, because
the Go function returns nil before any check when `len(netConf) == 0`;
the claim as stated (quantifying over every list) predicts an error
here. -/
theorem defaultForNetConf_empty_counterexample :
    (∀ c ∈ ([] : List NetConf), defaultIf c.ifName = false) ∧
    defaultForNetConf ([] : List NetConf) = .ok [] := by
  exact ⟨by intro c hc; simp at hc, rfl⟩

/-- C2 (amended with a non-empty list, as in spec section 4.5): two or
more entries with `DefaultRoute=true` give an error; no default-interface
entry gives an error; with no default route and some default-interface
entry the first such entry is marked as default and everything else is
unchanged. -/
theorem defaultForNetConf_policy (l : List NetConf) (hne : l ≠ []) :
    (2 ≤ l.countP (fun c => c.defaultRoute) → ∃ e, defaultForNetConf l = .error e) ∧
    ((∀ c ∈ l, defaultIf c.ifName = false) → ∃ e, defaultForNetConf l = .error e) ∧
    (l.countP (fun c => c.defaultRoute) = 0 → (∃ c ∈ l, defaultIf c.ifName = true) →
      ∃ pre c suf, l = pre ++ c :: suf ∧ (∀ x ∈ pre, defaultIf x.ifName = false) ∧
        defaultIf c.ifName = true ∧
        defaultForNetConf l = .ok (pre ++ { c with defaultRoute := true } :: suf)) := by
  have hlen : ¬ l.length = 0 := by
    simpa [List.length_eq_zero] using hne
  refine ⟨?_, ?_, ?_⟩
  · intro h2
    rcases defaultForNetConfScan_false_error l false h2 with ⟨e, he⟩
    refine ⟨e, ?_⟩
    rw [defaultForNetConf, if_neg hlen, he]
  · intro hnone
    rcases Nat.lt_or_ge (l.countP (fun c => c.defaultRoute)) 2 with hlt | hge
    · have hok := defaultForNetConfScan_false_ok l false (by omega)
      have hany : l.any (fun c => defaultIf c.ifName) = false := by
        rw [List.any_eq_false]
        intro c hc
        simp [hnone c hc]
      refine ⟨"default interface is not set", ?_⟩
      rw [defaultForNetConf, if_neg hlen, hok, hany]
      simp
    · rcases defaultForNetConfScan_false_error l false hge with ⟨e, he⟩
      refine ⟨e, ?_⟩
      rw [defaultForNetConf, if_neg hlen, he]
  · intro hzero hex
    have hok := defaultForNetConfScan_false_ok l false (by omega)
    have hdr : l.any (fun c => c.defaultRoute) = false := by
      rw [List.any_eq_false]
      intro c hc
      have := List.countP_eq_zero.mp hzero c hc
      simpa using this
    have hany : l.any (fun c => defaultIf c.ifName) = true := by
      rw [List.any_eq_true]
      rcases hex with ⟨c, hc, hdc⟩
      exact ⟨c, hc, hdc⟩
    rcases markFirstDefault_split l hex with ⟨pre, c, suf, heq, hpre, hd, hmark⟩
    refine ⟨pre, c, suf, heq, hpre, hd, ?_⟩
    rw [defaultForNetConf, if_neg hlen, hok, hdr, hany]
    simpa using hmark

/-- C2 witness: the amended theorem applied to a one-entry list. -/
theorem defaultForNetConf_policy_witness :
    ([({ ifName := "eth0" } : NetConf)] ≠ []) ∧
    ((2 ≤ [({ ifName := "eth0" } : NetConf)].countP (fun c => c.defaultRoute) →
        ∃ e, defaultForNetConf [({ ifName := "eth0" } : NetConf)] = .error e) ∧
     ((∀ c ∈ [({ ifName := "eth0" } : NetConf)], defaultIf c.ifName = false) →
        ∃ e, defaultForNetConf [({ ifName := "eth0" } : NetConf)] = .error e) ∧
     ([({ ifName := "eth0" } : NetConf)].countP (fun c => c.defaultRoute) = 0 →
      (∃ c ∈ [({ ifName := "eth0" } : NetConf)], defaultIf c.ifName = true) →
      ∃ pre c suf, [({ ifName := "eth0" } : NetConf)] = pre ++ c :: suf ∧
        (∀ x ∈ pre, defaultIf x.ifName = false) ∧
        defaultIf c.ifName = true ∧
        defaultForNetConf [({ ifName := "eth0" } : NetConf)] =
          .ok (pre ++ { c with defaultRoute := true } :: suf))) :=
  ⟨by simp, defaultForNetConf_policy [{ ifName := "eth0" }] (by simp)⟩

/-- C10: `defaultForNetConf` applied to the empty list returns success
without touching anything (the `len == 0` early return), and a concrete
`GetIPInfo` call (ENIMultiIP CRD-mode pod whose CRD read fails) returns a
success reply that carries zero NetConfs. -/
theorem emptyNetConf_success :
    defaultForNetConf ([] : List NetConf) = .ok [] ∧
    GetIPInfo { daemonMode := daemonModeENIMultiIP, enableTrunk := true }
        [] {} { podNetworkType := podNetworkTypeENIMultiIP, podENI := true }
        { crdFetch := .error .notFound } =
      .ok { error := .errNoErr, ipType := .typeENIMultiIP, ipv4 := true, ipv6 := false,
            netConfs := [], enableTrunking := true } := by
  constructor
  · rfl
  · rfl

/-- An `AllocIP` call with an incompatible mode pair leaves everything
untouched and fails. -/
theorem allocCore_badMode (env : Env) (o : AllocOutcomes) (store : Store)
    (r : AllocIPRequest) (podinfo : PodInfo)
    (hv : verifyPodNetworkType env.daemonMode podinfo.podNetworkType = false) :
    allocCore env o store r podinfo =
      { result := .error "unexpect pod network type allocate, maybe daemon mode changed",
        store := store, recorded := [] } := by
  rw [allocCore]
  simp [hv]

/-- C7: the `(daemonMode, PodNetworkType)` pair is accepted exactly for
VPC with VPCENI or VPCIP, ENIMultiIP with ENIMultiIP, and ENIOnly with
VPCENI; every other pair makes `AllocIP` fail without touching anything,
while `ReleaseIP` returns a success reply with no manager call and an
unchanged store. -/
theorem modePolicy :
    (∀ dm pt, verifyPodNetworkType dm pt = true ↔
      ((dm = daemonModeVPC ∧ (pt = podNetworkTypeVPCENI ∨ pt = podNetworkTypeVPCIP)) ∨
       (dm = daemonModeENIMultiIP ∧ pt = podNetworkTypeENIMultiIP) ∨
       (dm = daemonModeENIOnly ∧ pt = podNetworkTypeVPCENI))) ∧
    (∀ (env : Env) (o : AllocOutcomes) (store : Store) (r : AllocIPRequest) (podinfo : PodInfo),
      verifyPodNetworkType env.daemonMode podinfo.podNetworkType = false →
      AllocIP env o store r podinfo =
        { result := .error "unexpect pod network type allocate, maybe daemon mode changed",
          store := store, recorded := [], released := [] }) ∧
    (∀ (env : Env) (store : Store) (r : ReleaseIPRequest) (podinfo : PodInfo)
        (relOutcome : ResourceItem → ReleaseResult) (ctxErr : Option String),
      verifyPodNetworkType env.daemonMode podinfo.podNetworkType = false →
      ReleaseIP env store r podinfo relOutcome ctxErr =
        { result := .ok { success := true, ipv4 := env.ipv4, ipv6 := env.ipv6 },
          store := store, released := [] }) := by
  refine ⟨?_, ?_, ?_⟩
  · intro dm pt
    simp only [verifyPodNetworkType, Bool.or_eq_true, Bool.and_eq_true, decide_eq_true_eq]
    tauto
  · intro env o store r podinfo hv
    rw [AllocIP, allocCore_badMode env o store r podinfo hv]
    rfl
  · intro env store r podinfo relOutcome ctxErr hv
    rw [ReleaseIP]
    simp [hv]

/-- C7 witness: releasing an ENIMultiIP pod under daemon mode VPC (and the
matching failing alloc). -/
theorem modePolicy_witness :
    (verifyPodNetworkType daemonModeVPC podNetworkTypeENIMultiIP = false) ∧
    AllocIP { daemonMode := daemonModeVPC } {} [] {}
        { podNetworkType := podNetworkTypeENIMultiIP } =
      { result := .error "unexpect pod network type allocate, maybe daemon mode changed",
        store := [], recorded := [], released := [] } ∧
    ReleaseIP { daemonMode := daemonModeVPC } [] {}
        { podNetworkType := podNetworkTypeENIMultiIP } (fun _ => .ok) none =
      { result := .ok { success := true, ipv4 := true, ipv6 := false },
        store := [], released := [] } :=
  ⟨by decide,
   modePolicy.2.1 { daemonMode := daemonModeVPC } {} [] {}
     { podNetworkType := podNetworkTypeENIMultiIP } (by decide),
   modePolicy.2.2 { daemonMode := daemonModeVPC } [] {}
     { podNetworkType := podNetworkTypeENIMultiIP } (fun _ => .ok) none (by decide)⟩

/-- The release loop does nothing when `IPStickTime` is positive. -/
theorem releaseLoop_sticky (env : Env) (relOutcome : ResourceItem → ReleaseResult)
    (podinfo : PodInfo) (key : String) (hstick : podinfo.ipStickTime ≠ 0) :
    ∀ (items : List ResourceItem) (s : Store) (trace : List ResourceItem),
      releaseLoop env relOutcome podinfo key items s trace = (none, s, trace) := by
  intro items
  induction items with
  | nil => intro s trace; rfl
  | cons res rest ih =>
    intro s trace
    rw [releaseLoop]
    by_cases hm : mgrForResourceExists env.daemonMode env.eipMgrPresent res.rtype = true
    · simp [hm, hstick, ih]
    · simp only [Bool.not_eq_true] at hm
      simp [hm, ih]

/-- C3: a `ReleaseIP` call on a pod with positive `IPStickTime` (mode and
container id matching, context alive) replies success, calls no manager
Release, and leaves the store unchanged. -/
theorem releaseIP_sticky (env : Env) (store : Store) (r : ReleaseIPRequest)
    (podinfo : PodInfo) (relOutcome : ResourceItem → ReleaseResult)
    (hver : verifyPodNetworkType env.daemonMode podinfo.podNetworkType = true)
    (hcid : containerIDMismatch (getPodResource store podinfo).containerID
      r.k8sPodInfraContainerId = false)
    (hstick : 0 < podinfo.ipStickTime) :
    ReleaseIP env store r podinfo relOutcome none =
      { result := .ok { success := true, ipv4 := env.ipv4, ipv6 := env.ipv6 },
        store := store, released := [] } := by
  rw [ReleaseIP]
  rw [releaseLoop_sticky env relOutcome podinfo _ (by omega)]
  simp [hver, hcid]

/-- C3 witness: sticky release on a stored record with matching container
id. -/
theorem releaseIP_sticky_witness :
    (verifyPodNetworkType daemonModeENIMultiIP podNetworkTypeENIMultiIP = true) ∧
    (containerIDMismatch
      (getPodResource
        [("default/x",
          { podInfo := { ns := "default", name := "x" },
            resources := [{ rtype := ResourceTypeENIIP, id := "eni-1.10.0.0.8" }],
            containerID := some "A" })]
        { ns := "default", name := "x", podNetworkType := podNetworkTypeENIMultiIP,
          ipStickTime := 300 }).containerID "A" = false) ∧
    ReleaseIP { daemonMode := daemonModeENIMultiIP }
        [("default/x",
          { podInfo := { ns := "default", name := "x" },
            resources := [{ rtype := ResourceTypeENIIP, id := "eni-1.10.0.0.8" }],
            containerID := some "A" })]
        { k8sPodNamespace := "default", k8sPodName := "x", k8sPodInfraContainerId := "A" }
        { ns := "default", name := "x", podNetworkType := podNetworkTypeENIMultiIP,
          ipStickTime := 300 }
        (fun _ => .ok) none =
      { result := .ok { success := true, ipv4 := true, ipv6 := false },
        store :=
          [("default/x",
            { podInfo := { ns := "default", name := "x" },
              resources := [{ rtype := ResourceTypeENIIP, id := "eni-1.10.0.0.8" }],
              containerID := some "A" })],
        released := [] } :=
  ⟨by decide, by decide,
   releaseIP_sticky _ _ _ _ _ (by decide) (by decide) (by decide)⟩

/-- C6: a `ReleaseIP` call whose request container id differs from the
stored one replies success, calls no manager Release, and leaves the
store unchanged, whatever the context state. -/
theorem releaseIP_staleSandbox (env : Env) (store : Store) (r : ReleaseIPRequest)
    (podinfo : PodInfo) (relOutcome : ResourceItem → ReleaseResult) (ctxErr : Option String)
    (cid : String)
    (hver : verifyPodNetworkType env.daemonMode podinfo.podNetworkType = true)
    (hsome : (getPodResource store podinfo).containerID = some cid)
    (hne : r.k8sPodInfraContainerId ≠ cid) :
    ReleaseIP env store r podinfo relOutcome ctxErr =
      { result := .ok { success := true, ipv4 := env.ipv4, ipv6 := env.ipv6 },
        store := store, released := [] } := by
  rw [ReleaseIP]
  have hmis : containerIDMismatch (getPodResource store podinfo).containerID
      r.k8sPodInfraContainerId = true := by
    rw [hsome, containerIDMismatch]
    simpa using hne
  simp [hver, hmis]

/-- C6 witness: stored container id A, request container id B. -/
theorem releaseIP_staleSandbox_witness :
    (verifyPodNetworkType daemonModeENIMultiIP podNetworkTypeENIMultiIP = true) ∧
    ((getPodResource
        [("default/x",
          { podInfo := { ns := "default", name := "x" },
            resources := [{ rtype := ResourceTypeENIIP, id := "eni-1.10.0.0.8" }],
            containerID := some "A" })]
        { ns := "default", name := "x",
          podNetworkType := podNetworkTypeENIMultiIP }).containerID = some "A") ∧
    ("B" ≠ "A") ∧
    ReleaseIP { daemonMode := daemonModeENIMultiIP }
        [("default/x",
          { podInfo := { ns := "default", name := "x" },
            resources := [{ rtype := ResourceTypeENIIP, id := "eni-1.10.0.0.8" }],
            containerID := some "A" })]
        { k8sPodNamespace := "default", k8sPodName := "x", k8sPodInfraContainerId := "B" }
        { ns := "default", name := "x", podNetworkType := podNetworkTypeENIMultiIP }
        (fun _ => .ok) none =
      { result := .ok { success := true, ipv4 := true, ipv6 := false },
        store :=
          [("default/x",
            { podInfo := { ns := "default", name := "x" },
              resources := [{ rtype := ResourceTypeENIIP, id := "eni-1.10.0.0.8" }],
              containerID := some "A" })],
        released := [] } :=
  ⟨by decide, by decide, by decide,
   releaseIP_staleSandbox _ _ _ _ _ _ "A" (by decide) (by decide) (by decide)⟩

/-- C5 exhibit: on an ENIMultiIP CRD-mode pod whose PodENI is absent (a
Kubernetes NotFound), `GetIPInfo` returns without raising and with an
empty conf list, but the reply Error stays `ErrNoErr`, because the Go
guard after `err2 := ...` tests `err` (nil there), a dead branch; a
PodENI with zero allocations produces a plain error that is not a
Kubernetes NotFound, so the Error field stays `ErrNoErr` in the VPCENI
CRD branch too.  Only a genuine NotFound in the VPCENI CRD branch sets
`ErrCRDNotFound`. -/
theorem getIPInfo_crdNotFound_divergence :
    (GetIPInfo { daemonMode := daemonModeENIMultiIP, enableTrunk := true } []
        {} { podNetworkType := podNetworkTypeENIMultiIP, podENI := true }
        { crdFetch := .error .notFound } =
      .ok { error := .errNoErr, ipType := .typeENIMultiIP, ipv4 := true, ipv6 := false,
            netConfs := [], enableTrunking := true }) ∧
    (GetIPInfo { daemonMode := daemonModeVPC, ipamTypeCRD := true } []
        {} { podNetworkType := podNetworkTypeVPCENI }
        { crdFetch := .ok { allocations := [] } } =
      .ok { error := .errNoErr, ipType := .typeVPCENI, ipv4 := true, ipv6 := false,
            netConfs := [], enableTrunking := false }) ∧
    (GetIPInfo { daemonMode := daemonModeVPC, ipamTypeCRD := true } []
        {} { podNetworkType := podNetworkTypeVPCENI }
        { crdFetch := .error .notFound } =
      .ok { error := .errCRDNotFound, ipType := .typeVPCENI, ipv4 := true, ipv6 := false,
            netConfs := [], enableTrunking := false }) :=
  ⟨rfl, rfl, rfl⟩

/-! ### Store lemmas -/

/-- Reading a key just deleted yields nothing. -/
theorem storeGet_delete_self (s : Store) (k : String) :
    storeGet (storeDelete s k) k = none := by
  induction s with
  | nil => rfl
  | cons kv rest ih =>
    rcases kv with ⟨k0, v0⟩
    rw [storeDelete]
    by_cases hk : k0 = k
    · rw [if_pos hk]
      exact ih
    · rw [if_neg hk, storeGet, if_neg hk]
      exact ih

/-- Deleting one key does not affect reads of another. -/
theorem storeGet_delete_other (s : Store) (k k2 : String) (h : k ≠ k2) :
    storeGet (storeDelete s k2) k = storeGet s k := by
  induction s with
  | nil => rfl
  | cons kv rest ih =>
    rcases kv with ⟨k0, v0⟩
    rw [storeDelete]
    by_cases hk : k0 = k2
    · rw [if_pos hk, storeGet, if_neg (by rw [hk]; exact fun hh => h hh.symm)]
      exact ih
    · rw [if_neg hk, storeGet, storeGet]
      by_cases hk1 : k0 = k
      · rw [if_pos hk1, if_pos hk1]
      · rw [if_neg hk1, if_neg hk1]
        exact ih

/-- A missing key stays missing under any deletion. -/
theorem storeGet_none_delete (s : Store) (k k2 : String)
    (h : storeGet s k = none) : storeGet (storeDelete s k2) k = none := by
  by_cases hk : k = k2
  · rw [hk
      ]
    exact storeGet_delete_self s k2
  · rw [storeGet_delete_other s k k2 hk]
    exact h

/-- Writing a key makes it readable. -/
theorem storeGet_put_self (s : Store) (k : String) (v : PodResources) :
    storeGet (storePut s k v) k = some v := by
  induction s with
  | nil => simp [storePut, storeGet]
  | cons kv rest ih =>
    rw [storePut]
    by_cases hk : kv.1 = k
    · rw [if_pos hk, storeGet, if_pos hk]
    · rw [if_neg hk, storeGet, if_neg hk]
      exact ih

/-- Writing one key does not affect reads of another. -/
theorem storeGet_put_other (s : Store) (k k2 : String) (v : PodResources) (h : k ≠ k2) :
    storeGet (storePut s k2 v) k = storeGet s k := by
  induction s with
  | nil =>
    simp [storePut, storeGet, Ne.symm h]
  | cons kv rest ih =>
    rw [storePut]
    by_cases hk : kv.1 = k2
    · rw [if_pos hk, storeGet, storeGet, hk]
      rw [if_neg (fun hh => h hh.symm), if_neg (fun hh => h hh.symm)]
    · rw [if_neg hk, storeGet, storeGet]
      by_cases hk1 : kv.1 = k
      · rw [if_pos hk1, if_pos hk1]
      · rw [if_neg hk1, if_neg hk1]
        exact ih

/-! ### Rollback lemmas -/

/-- The rollback preserves the absence of the pod key. -/
theorem rollback_store_none_aux (env : Env) (key : String) :
    ∀ (items : List ResourceItem) (s : Store) (rel : List ResourceItem),
      storeGet s key = none → storeGet (rollback env key items s rel).1 key = none := by
  intro items
  induction items with
  | nil => intro s rel h; exact h
  | cons res rest ih =>
    intro s rel h
    rw [rollback]
    by_cases hm : mgrForResourceExists env.daemonMode env.eipMgrPresent res.rtype = true
    · rw [if_pos hm]
      exact ih _ _ (storeGet_none_delete s key key h)
    · rw [if_neg hm]
      exact ih _ _ (storeGet_none_delete s key key h)

/-- After a non-trivial rollback the pod key is gone from the store. -/
theorem rollback_store_none (env : Env) (key : String) (items : List ResourceItem)
    (s : Store) (rel : List ResourceItem) (h : items ≠ []) :
    storeGet (rollback env key items s rel).1 key = none := by
  cases items with
  | nil => exact absurd rfl h
  | cons res rest =>
    rw [rollback]
    by_cases hm : mgrForResourceExists env.daemonMode env.eipMgrPresent res.rtype = true
    · rw [if_pos hm]
      exact rollback_store_none_aux env key rest _ _ (storeGet_delete_self s key)
    · rw [if_neg hm]
      exact rollback_store_none_aux env key rest _ _ (storeGet_delete_self s key)

/-- When every recorded item has a manager, the rollback releases exactly
the recorded items, in order. -/
theorem rollback_released (env : Env) (key : String) :
    ∀ (items : List ResourceItem) (s : Store) (rel : List ResourceItem),
      (∀ res ∈ items, mgrForResourceExists env.daemonMode env.eipMgrPresent res.rtype = true) →
      (rollback env key items s rel).2 = rel ++ items := by
  intro items
  induction items with
  | nil => intro s rel h; simp [rollback]
  | cons res rest ih =>
    intro s rel h
    rw [rollback, if_pos (h res (by simp))]
    rw [ih _ _ (fun x hx => h x (by simp [hx]))]
    simp

/-! ### Which daemon modes accept which pod network types -/

/-- Only the ENIMultiIP daemon mode accepts ENIMultiIP pods. -/
theorem verify_eniMultiIP (dm : String)
    (h : verifyPodNetworkType dm podNetworkTypeENIMultiIP = true) :
    dm = daemonModeENIMultiIP := by
  simp only [verifyPodNetworkType, podNetworkTypeENIMultiIP, podNetworkTypeVPCENI,
    podNetworkTypeVPCIP, daemonModeVPC, daemonModeENIMultiIP, daemonModeENIOnly,
    Bool.or_eq_true, Bool.and_eq_true, decide_eq_true_eq] at h
  simp only [daemonModeENIMultiIP]
  rcases h with ⟨_, h | h⟩ | ⟨h, _⟩ | ⟨_, h⟩ <;> simp_all

/-- Only the VPC and ENIOnly daemon modes accept VPCENI pods. -/
theorem verify_vpcENI (dm : String)
    (h : verifyPodNetworkType dm podNetworkTypeVPCENI = true) :
    dm = daemonModeVPC ∨ dm = daemonModeENIOnly := by
  simp only [verifyPodNetworkType, podNetworkTypeENIMultiIP, podNetworkTypeVPCENI,
    podNetworkTypeVPCIP, daemonModeVPC, daemonModeENIMultiIP, daemonModeENIOnly,
    Bool.or_eq_true, Bool.and_eq_true, decide_eq_true_eq] at h
  simp only [daemonModeVPC, daemonModeENIOnly]
  rcases h with ⟨h, _⟩ | ⟨_, h⟩ | ⟨h, _⟩ <;> simp_all

/-- Only the VPC daemon mode accepts VPCIP pods. -/
theorem verify_vpcIP (dm : String)
    (h : verifyPodNetworkType dm podNetworkTypeVPCIP = true) :
    dm = daemonModeVPC := by
  simp only [verifyPodNetworkType, podNetworkTypeENIMultiIP, podNetworkTypeVPCENI,
    podNetworkTypeVPCIP, daemonModeVPC, daemonModeENIMultiIP, daemonModeENIOnly,
    Bool.or_eq_true, Bool.and_eq_true, decide_eq_true_eq] at h
  simp only [daemonModeVPC]
  rcases h with ⟨h, _⟩ | ⟨_, h⟩ | ⟨_, h⟩ <;> simp_all

/-! ### The items an `AllocIP` branch records -/

/-- Items recorded by the ENIMultiIP branch are ENI-IPs, or EIPs when the
EIP manager exists. -/
theorem allocENIMultiIPBranch_recorded (env : Env) (o : AllocOutcomes) (store : Store)
    (r : AllocIPRequest) (podinfo : PodInfo) (key : String) :
    ∀ res ∈ (allocENIMultiIPBranch env o store r podinfo key).2.2,
      res.rtype = ResourceTypeENIIP ∨
        (res.rtype = ResourceTypeEIP ∧ env.eipMgrPresent = true) := by
  intro res hres
  unfold allocENIMultiIPBranch at hres
  simp only [] at hres
  repeat' split at hres
  all_goals
    first
    | (simp [ENIIP.toResItems, EIP.toResItems] at hres
       done)
    | (simp [ENIIP.toResItems, EIP.toResItems] at hres
       subst hres
       left
       rfl)
    | (simp [ENIIP.toResItems, EIP.toResItems] at hres
       rcases hres with hres | hres
       · subst hres
         left
         rfl
       · subst hres
         exact Or.inr ⟨rfl, by simp_all⟩)

/-- Items recorded by the VPCENI branch are ENIs, or EIPs when the EIP
manager exists. -/
theorem allocVPCENIBranch_recorded (env : Env) (o : AllocOutcomes) (store : Store)
    (r : AllocIPRequest) (podinfo : PodInfo) (key : String) :
    ∀ res ∈ (allocVPCENIBranch env o store r podinfo key).2.2,
      res.rtype = ResourceTypeENI ∨
        (res.rtype = ResourceTypeEIP ∧ env.eipMgrPresent = true) := by
  intro res hres
  unfold allocVPCENIBranch at hres
  simp only [] at hres
  repeat' split at hres
  all_goals
    first
    | (simp [ENI.toResItems, EIP.toResItems] at hres
       done)
    | (simp [ENI.toResItems, EIP.toResItems] at hres
       subst hres
       left
       rfl)
    | (simp [ENI.toResItems, EIP.toResItems] at hres
       rcases hres with hres | hres
       · subst hres
         left
         rfl
       · subst hres
         exact Or.inr ⟨rfl, by simp_all⟩)

/-- Items recorded by the VPCIP branch are veths. -/
theorem allocVPCIPBranch_recorded (env : Env) (o : AllocOutcomes) (store : Store)
    (r : AllocIPRequest) (podinfo : PodInfo) (key : String) :
    ∀ res ∈ (allocVPCIPBranch env o store r podinfo key).2.2,
      res.rtype = ResourceTypeVeth := by
  intro res hres
  unfold allocVPCIPBranch at hres
  simp only [] at hres
  repeat' split at hres
  all_goals
    first
    | (simp [Veth.toResItems] at hres
       done)
    | (simp [Veth.toResItems] at hres
       subst hres
       rfl)

/-- Every item the `AllocIP` body records comes from the dispatched
branch, under a validated network type. -/
theorem allocCore_recorded_cases (env : Env) (o : AllocOutcomes) (store : Store)
    (r : AllocIPRequest) (podinfo : PodInfo) (res : ResourceItem)
    (hres : res ∈ (allocCore env o store r podinfo).recorded) :
    verifyPodNetworkType env.daemonMode podinfo.podNetworkType = true ∧
    ((podinfo.podNetworkType = podNetworkTypeENIMultiIP ∧
        res ∈ (allocENIMultiIPBranch env o store r podinfo
          (podInfoKey podinfo.ns podinfo.name)).2.2) ∨
     (podinfo.podNetworkType = podNetworkTypeVPCENI ∧
        res ∈ (allocVPCENIBranch env o store r podinfo
          (podInfoKey podinfo.ns podinfo.name)).2.2) ∨
     (podinfo.podNetworkType = podNetworkTypeVPCIP ∧
        res ∈ (allocVPCIPBranch env o store r podinfo
          (podInfoKey podinfo.ns podinfo.name)).2.2)) := by
  unfold allocCore at hres
  simp only [] at hres
  by_cases hv : verifyPodNetworkType env.daemonMode podinfo.podNetworkType = true
  · rw [if_neg (by simp [hv])] at hres
    refine ⟨hv, ?_⟩
    by_cases h1 : podinfo.podNetworkType = podNetworkTypeENIMultiIP
    · rw [if_pos h1] at hres
      refine Or.inl ⟨h1, ?_⟩
      rcases hb : allocENIMultiIPBranch env o store r podinfo
          (podInfoKey podinfo.ns podinfo.name) with ⟨br, s1, rec⟩
      rw [hb] at hres
      rcases br with e | nc
      · simpa using hres
      · rcases hcx : o.ctxErr with _ | e <;> rw [hcx] at hres <;> simpa using hres
    · rw [if_neg h1] at hres
      by_cases h2 : podinfo.podNetworkType = podNetworkTypeVPCENI
      · rw [if_pos h2] at hres
        refine Or.inr (Or.inl ⟨h2, ?_⟩)
        rcases hb : allocVPCENIBranch env o store r podinfo
            (podInfoKey podinfo.ns podinfo.name) with ⟨br, s1, rec⟩
        rw [hb] at hres
        rcases br with e | nc
        · simpa using hres
        · rcases hcx : o.ctxErr with _ | e <;> rw [hcx] at hres <;> simpa using hres
      · rw [if_neg h2] at hres
        by_cases h3 : podinfo.podNetworkType = podNetworkTypeVPCIP
        · rw [if_pos h3] at hres
          refine Or.inr (Or.inr ⟨h3, ?_⟩)
          rcases hb : allocVPCIPBranch env o store r podinfo
              (podInfoKey podinfo.ns podinfo.name) with ⟨br, s1, rec⟩
          rw [hb] at hres
          rcases br with e | nc
          · simpa using hres
          · rcases hcx : o.ctxErr with _ | e <;> rw [hcx] at hres <;> simpa using hres
        · rw [if_neg h3] at hres
          simp at hres
  · rw [if_pos (by simp [Bool.not_eq_true] at hv; simp [hv])] at hres
    simp at hres

/-- Every item the `AllocIP` body records has a manager, given the
invariant of `newNetworkService` that VPC mode never has an EIP
manager. -/
theorem allocCore_recorded_mgr (env : Env) (o : AllocOutcomes) (store : Store)
    (r : AllocIPRequest) (podinfo : PodInfo)
    (hwf : env.daemonMode = daemonModeVPC → env.eipMgrPresent = false) :
    ∀ res ∈ (allocCore env o store r podinfo).recorded,
      mgrForResourceExists env.daemonMode env.eipMgrPresent res.rtype = true := by
  intro res hres
  rcases allocCore_recorded_cases env o store r podinfo res hres with
    ⟨hv, ⟨h1, hb⟩ | ⟨h2, hb⟩ | ⟨h3, hb⟩⟩
  · have hdm := verify_eniMultiIP env.daemonMode (h1 ▸ hv)
    rcases allocENIMultiIPBranch_recorded env o store r podinfo
        (podInfoKey podinfo.ns podinfo.name) res hb with h | ⟨h, hp⟩
    · rw [mgrForResourceExists, hdm, h]
      simp [daemonModeVPC, daemonModeENIMultiIP, ResourceTypeENIIP]
    · rw [mgrForResourceExists, hdm, h, hp]
      simp [daemonModeVPC, daemonModeENIMultiIP, ResourceTypeENIIP, ResourceTypeEIP]
  · have hdm := verify_vpcENI env.daemonMode (h2 ▸ hv)
    rcases allocVPCENIBranch_recorded env o store r podinfo
        (podInfoKey podinfo.ns podinfo.name) res hb with h | ⟨h, hp⟩
    · rcases hdm with hdm | hdm <;>
        · rw [mgrForResourceExists, hdm, h]
          simp [daemonModeVPC, daemonModeENIMultiIP, daemonModeENIOnly,
            ResourceTypeENI, ResourceTypeENIIP]
    · rcases hdm with hdm | hdm
      · exact absurd (hwf hdm) (by simp [hp])
      · rw [mgrForResourceExists, hdm, h, hp]
        simp [daemonModeVPC, daemonModeENIMultiIP, daemonModeENIOnly,
          ResourceTypeENI, ResourceTypeEIP]
  · have hdm := verify_vpcIP env.daemonMode (h3 ▸ hv)
    have hveth := allocVPCIPBranch_recorded env o store r podinfo
      (podInfoKey podinfo.ns podinfo.name) res hb
    rw [mgrForResourceExists, hdm, hveth]
    simp [daemonModeVPC, ResourceTypeENI, ResourceTypeVeth]

/-- C1: when the `AllocIP` body fails after resource allocation began
(some item was recorded in the request context), the rollback leaves no
store record for the pod and releases exactly the recorded items, and the
surfaced error is always the error of the body, never one of the
rollback.  The hypothesis is the `newNetworkService` invariant that VPC
mode has no EIP manager. -/
theorem allocIP_rollback_complete (env : Env) (o : AllocOutcomes) (store : Store)
    (r : AllocIPRequest) (podinfo : PodInfo)
    (hwf : env.daemonMode = daemonModeVPC → env.eipMgrPresent = false) :
    (AllocIP env o store r podinfo).result = (allocCore env o store r podinfo).result ∧
    (∀ e, (AllocIP env o store r podinfo).result = .error e →
      (AllocIP env o store r podinfo).recorded ≠ [] →
      storeGet (AllocIP env o store r podinfo).store
        (podInfoKey podinfo.ns podinfo.name) = none ∧
      (AllocIP env o store r podinfo).released = (AllocIP env o store r podinfo).recorded) := by
  have hproj : (AllocIP env o store r podinfo).result = (allocCore env o store r podinfo).result := by
    rw [AllocIP]
    rcases h : (allocCore env o store r podinfo).result with e | rep <;> simp [h]
  have hrec : (AllocIP env o store r podinfo).recorded = (allocCore env o store r podinfo).recorded := by
    rw [AllocIP]
    rcases h : (allocCore env o store r podinfo).result with e | rep <;> simp [h]
  refine ⟨hproj, ?_⟩
  intro e he hne
  have hcore : (allocCore env o store r podinfo).result = .error e := hproj ▸ he
  have hs : (AllocIP env o store r podinfo).store =
      (rollback env (podInfoKey podinfo.ns podinfo.name)
        (allocCore env o store r podinfo).recorded
        (allocCore env o store r podinfo).store []).1 := by
    rw [AllocIP]
    simp [hcore]
  have hr : (AllocIP env o store r podinfo).released =
      (rollback env (podInfoKey podinfo.ns podinfo.name)
        (allocCore env o store r podinfo).recorded
        (allocCore env o store r podinfo).store []).2 := by
    rw [AllocIP]
    simp [hcore]
  have hne2 : (allocCore env o store r podinfo).recorded ≠ [] := hrec ▸ hne
  constructor
  · rw [hs]
    exact rollback_store_none env _ _ _ _ hne2
  · rw [hr, hrec]
    rw [rollback_released env _ _ _ _ (allocCore_recorded_mgr env o store r podinfo hwf)]
    simp

/-- C1 witness: an EIP allocation failure after a successful ENI-IP
allocation rolls back the store and releases the ENI-IP item. -/
theorem allocIP_rollback_complete_witness :
    (({ daemonMode := daemonModeENIMultiIP, eipMgrPresent := true } : Env).daemonMode =
        daemonModeVPC →
      ({ daemonMode := daemonModeENIMultiIP, eipMgrPresent := true } : Env).eipMgrPresent = false) ∧
    (AllocIP { daemonMode := daemonModeENIMultiIP, eipMgrPresent := true }
        { eniIPAlloc := .ok { eni := { id := "eni-1" }, ipSet := { ipv4 := "10.0.0.8" } },
          eipAlloc := .error "boom" }
        [] {} { ns := "default", name := "x",
                podNetworkType := podNetworkTypeENIMultiIP, podEip := true }).result =
      .error "error get allocated eip, result: boom" ∧
    (AllocIP { daemonMode := daemonModeENIMultiIP, eipMgrPresent := true }
        { eniIPAlloc := .ok { eni := { id := "eni-1" }, ipSet := { ipv4 := "10.0.0.8" } },
          eipAlloc := .error "boom" }
        [] {} { ns := "default", name := "x",
                podNetworkType := podNetworkTypeENIMultiIP, podEip := true }).recorded =
      [{ rtype := ResourceTypeENIIP, id := "eni-1.10.0.0.8" }] ∧
    storeGet (AllocIP { daemonMode := daemonModeENIMultiIP, eipMgrPresent := true }
        { eniIPAlloc := .ok { eni := { id := "eni-1" }, ipSet := { ipv4 := "10.0.0.8" } },
          eipAlloc := .error "boom" }
        [] {} { ns := "default", name := "x",
                podNetworkType := podNetworkTypeENIMultiIP, podEip := true }).store
      (podInfoKey "default" "x") = none ∧
    (AllocIP { daemonMode := daemonModeENIMultiIP, eipMgrPresent := true }
        { eniIPAlloc := .ok { eni := { id := "eni-1" }, ipSet := { ipv4 := "10.0.0.8" } },
          eipAlloc := .error "boom" }
        [] {} { ns := "default", name := "x",
                podNetworkType := podNetworkTypeENIMultiIP, podEip := true }).released =
      (AllocIP { daemonMode := daemonModeENIMultiIP, eipMgrPresent := true }
        { eniIPAlloc := .ok { eni := { id := "eni-1" }, ipSet := { ipv4 := "10.0.0.8" } },
          eipAlloc := .error "boom" }
        [] {} { ns := "default", name := "x",
                podNetworkType := podNetworkTypeENIMultiIP, podEip := true }).recorded := by
  have h := allocIP_rollback_complete
    { daemonMode := daemonModeENIMultiIP, eipMgrPresent := true }
    { eniIPAlloc := .ok { eni := { id := "eni-1" }, ipSet := { ipv4 := "10.0.0.8" } },
      eipAlloc := .error "boom" }
    [] {} { ns := "default", name := "x",
            podNetworkType := podNetworkTypeENIMultiIP, podEip := true }
    (by intro hh; exact absurd hh (by decide))
  have hres : (AllocIP { daemonMode := daemonModeENIMultiIP, eipMgrPresent := true }
      { eniIPAlloc := .ok { eni := { id := "eni-1" }, ipSet := { ipv4 := "10.0.0.8" } },
        eipAlloc := .error "boom" }
      [] {} { ns := "default", name := "x",
              podNetworkType := podNetworkTypeENIMultiIP, podEip := true }).result =
      .error "error get allocated eip, result: boom" := by decide
  refine ⟨by intro hh; exact absurd hh (by decide), hres, by decide, ?_, ?_⟩
  · exact (h.2 _ hres (by decide)).1
  · exact (h.2 _ hres (by decide)).2

/-! ### GC route-rule cleanup lemmas -/

/-- The cleanup loop accumulator factors out. -/
theorem gcCleanupLoop_append (ids : List String) :
    ∀ acc, gcCleanupLoop ids acc = acc ++ gcCleanupLoop ids [] := by
  induction ids with
  | nil => intro acc; simp [gcCleanupLoop]
  | cons i rest ih =>
    intro acc
    cases hs : splitAfterFirstDot i with
    | none => simp [gcCleanupLoop, hs, ih acc]
    | some p =>
      cases hp : parseIPv4 p with
      | none => simp [gcCleanupLoop, hs, hp]
      | some ip =>
        simp only [gcCleanupLoop, hs, hp]
        rw [ih (acc ++ [p]), ih ([] ++ [p])]
        simp

/-- When every dotted id parses, the loop cleans exactly the dotted ids
(the no-dot ids are skipped without aborting). -/
theorem gcCleanupLoop_all_ok (ids : List String)
    (h : ∀ i ∈ ids, ∀ p, splitAfterFirstDot i = some p → (parseIPv4 p).isSome = true) :
    gcCleanupLoop ids [] = ids.filterMap splitAfterFirstDot := by
  induction ids with
  | nil => simp [gcCleanupLoop]
  | cons i rest ih =>
    have hrest : ∀ i ∈ rest, ∀ p, splitAfterFirstDot i = some p → (parseIPv4 p).isSome = true :=
      fun j hj p hp => h j (by simp [hj]) p hp
    cases hs : splitAfterFirstDot i with
    | none => simp [gcCleanupLoop, hs, ih hrest, List.filterMap_cons]
    | some p =>
      have hp : (parseIPv4 p).isSome = true := h i (by simp) p hs
      rcases Option.isSome_iff_exists.mp hp with ⟨ip, hip⟩
      simp only [gcCleanupLoop, hs, hip]
      rw [gcCleanupLoop_append rest ([] ++ [p]), ih hrest, List.filterMap_cons, hs]
      simp

/-- An id whose IP part does not parse ends the loop: only the dotted ids
before it are cleaned. -/
theorem gcCleanupLoop_abort (pre : List String) (bad : String) (rest : List String)
    (p : String)
    (hpre : ∀ i ∈ pre, ∀ q, splitAfterFirstDot i = some q → (parseIPv4 q).isSome = true)
    (hbad : splitAfterFirstDot bad = some p) (hnop : parseIPv4 p = none) :
    gcCleanupLoop (pre ++ bad :: rest) [] = pre.filterMap splitAfterFirstDot := by
  induction pre with
  | nil =>
    simp only [List.nil_append, gcCleanupLoop, hbad, hnop]
    simp
  | cons i pre1 ih =>
    have hpre1 : ∀ i ∈ pre1, ∀ q, splitAfterFirstDot i = some q → (parseIPv4 q).isSome = true :=
      fun j hj q hq => hpre j (by simp [hj]) q hq
    cases hs : splitAfterFirstDot i with
    | none =>
      simp only [List.cons_append, gcCleanupLoop, hs, List.append_eq]
      rw [ih hpre1, List.filterMap_cons, hs]
    | some q =>
      have hq : (parseIPv4 q).isSome = true := hpre i (by simp) q hs
      rcases Option.isSome_iff_exists.mp hq with ⟨ip, hip⟩
      simp only [List.cons_append, gcCleanupLoop, hs, hip, List.append_eq]
      rw [gcCleanupLoop_append (pre1 ++ bad :: rest) ([] ++ [q]), ih hpre1,
        List.filterMap_cons, hs]
      simp

/-- A key in the deletion list is gone after the deletion fold. -/
theorem storeGet_foldDelete_none (ks : List String) :
    ∀ (s : Store) (k : String), storeGet s k = none →
      storeGet (ks.foldl storeDelete s) k = none := by
  induction ks with
  | nil => intro s k h; exact h
  | cons k0 ks1 ih =>
    intro s k h
    exact ih _ _ (storeGet_none_delete s k k0 h)

/-- Every key of the deletion list is gone after the deletion fold. -/
theorem storeGet_foldDelete_mem (ks : List String) :
    ∀ (s : Store) (k : String), k ∈ ks →
      storeGet (ks.foldl storeDelete s) k = none := by
  induction ks with
  | nil => intro s k h; simp at h
  | cons k0 ks1 ih =>
    intro s k h
    rcases List.mem_cons.mp h with h | h
    · subst h
      exact storeGet_foldDelete_none ks1 _ _ (storeGet_delete_self s k)
    · exact ih _ _ h

/-- A key outside the deletion list is untouched by the deletion fold. -/
theorem storeGet_foldDelete_other (ks : List String) :
    ∀ (s : Store) (k : String), k ∉ ks →
      storeGet (ks.foldl storeDelete s) k = storeGet s k := by
  induction ks with
  | nil => intro s k h; rfl
  | cons k0 ks1 ih =>
    intro s k h
    rw [List.foldl_cons, ih _ _ (fun hh => h (by simp [hh])),
      storeGet_delete_other s k k0 (fun hh => h (by simp [hh]))]

/-- C9 counterexample: with two expired ENI-IP ids, the first having an
unparsable IP part and the second a well formed `<eniID>.<ipv4>` id, a
fully successful GC pass cleans no rules at all (the Go loop returns, not
continues, on the parse failure), even though the claim requires the
well-formed id to have its rules deleted; the expired store records are
still deleted. -/
theorem gcCleanup_abort_counterexample :
    ("eni-2.192.168.0.1" ∈ expireENIIPIds
      (gcTick [] [("default/a",
          { podInfo := { ns := "default", name := "a" },
            resources := [{ rtype := ResourceTypeENIIP, id := "eni-1.notanip" }] }),
        ("default/b",
          { podInfo := { ns := "default", name := "b" },
            resources := [{ rtype := ResourceTypeENIIP, id := "eni-2.192.168.0.1" }] })]
        (fun _ => true) (fun _ => true)).expire) ∧
    splitAfterFirstDot "eni-2.192.168.0.1" = some "192.168.0.1" ∧
    (parseIPv4 "192.168.0.1").isSome = true ∧
    (gcTick [] [("default/a",
        { podInfo := { ns := "default", name := "a" },
          resources := [{ rtype := ResourceTypeENIIP, id := "eni-1.notanip" }] }),
      ("default/b",
        { podInfo := { ns := "default", name := "b" },
          resources := [{ rtype := ResourceTypeENIIP, id := "eni-2.192.168.0.1" }] })]
      (fun _ => true) (fun _ => true)).gcDone = true ∧
    (gcTick [] [("default/a",
        { podInfo := { ns := "default", name := "a" },
          resources := [{ rtype := ResourceTypeENIIP, id := "eni-1.notanip" }] }),
      ("default/b",
        { podInfo := { ns := "default", name := "b" },
          resources := [{ rtype := ResourceTypeENIIP, id := "eni-2.192.168.0.1" }] })]
      (fun _ => true) (fun _ => true)).cleaned = [] ∧
    (gcTick [] [("default/a",
        { podInfo := { ns := "default", name := "a" },
          resources := [{ rtype := ResourceTypeENIIP, id := "eni-1.notanip" }] }),
      ("default/b",
        { podInfo := { ns := "default", name := "b" },
          resources := [{ rtype := ResourceTypeENIIP, id := "eni-2.192.168.0.1" }] })]
      (fun _ => true) (fun _ => true)).store = [] := by
  refine ⟨by decide, by decide, by decide, by decide, by decide, by decide⟩

/-- C9 (amended): ids with no dot separator are skipped without aborting
(when every dotted id parses, every dotted id is cleaned, in order); an
id with an unparsable IP part ends the route-rule cleanup, so only the
dotted ids before it are cleaned; the deletion of the expired store
records happens regardless, for every key in the expire list of any
fully successful pass. -/
theorem gcCleanup_tolerance :
    (∀ ids : List String,
      (∀ i ∈ ids, ∀ p, splitAfterFirstDot i = some p → (parseIPv4 p).isSome = true) →
      gcCleanupLoop ids [] = ids.filterMap splitAfterFirstDot) ∧
    (∀ (pre : List String) (bad : String) (rest : List String) (p : String),
      (∀ i ∈ pre, ∀ q, splitAfterFirstDot i = some q → (parseIPv4 q).isSome = true) →
      splitAfterFirstDot bad = some p → parseIPv4 p = none →
      gcCleanupLoop (pre ++ bad :: rest) [] = pre.filterMap splitAfterFirstDot) ∧
    (∀ (live : List String) (store : Store) (mgrPresent mgrGCOk : String → Bool) (k : String),
      (gcTick live store mgrPresent mgrGCOk).gcDone = true →
      k ∈ (gcTick live store mgrPresent mgrGCOk).relateExpire →
      storeGet (gcTick live store mgrPresent mgrGCOk).store k = none) := by
  refine ⟨gcCleanupLoop_all_ok, gcCleanupLoop_abort, ?_⟩
  intro live store mgrPresent mgrGCOk k hdone hk
  have hdone2 : ((gcScan live store).typesSeen.all
      (fun t => !(mgrPresent t && !(mgrGCOk t)))) = true := hdone
  have hk2 : k ∈ (gcScan live store).relateExpire := hk
  have hstore : (gcTick live store mgrPresent mgrGCOk).store =
      (gcScan live store).relateExpire.foldl storeDelete (gcScan live store).store := by
    rw [gcTick]
    simp only [hdone2, if_pos]
  rw [hstore]
  exact storeGet_foldDelete_mem _ _ _ hk2

/-- C9 witness: a concrete run of the amended statement. -/
theorem gcCleanup_tolerance_witness :
    ((∀ i ∈ ["noDotId", "eni-1.10.0.0.5"], ∀ p, splitAfterFirstDot i = some p →
        (parseIPv4 p).isSome = true) ∧
      gcCleanupLoop ["noDotId", "eni-1.10.0.0.5"] [] =
        ["noDotId", "eni-1.10.0.0.5"].filterMap splitAfterFirstDot) ∧
    (splitAfterFirstDot "eni-9.oops" = some "oops" ∧ parseIPv4 "oops" = none ∧
      gcCleanupLoop (["eni-1.10.0.0.5"] ++ "eni-9.oops" :: ["eni-2.10.0.0.6"]) [] =
        ["eni-1.10.0.0.5"].filterMap splitAfterFirstDot) :=
  ⟨⟨by decide, gcCleanup_tolerance.1 ["noDotId", "eni-1.10.0.0.5"] (by decide)⟩,
   ⟨by decide, by decide,
    gcCleanup_tolerance.2.1 ["eni-1.10.0.0.5"] "eni-9.oops" ["eni-2.10.0.0.6"] "oops"
      (by decide) (by decide) (by decide)⟩⟩

/-! ### Set and state helper lemmas for the GC scan -/

/-- Insertion adds the pair. -/
theorem pairInsert_mem_self (l : List (String × String)) (p : String × String) :
    p ∈ pairInsert l p := by
  rw [pairInsert]
  split
  · assumption
  · simp

/-- Insertion keeps old members. -/
theorem pairInsert_mem_mono (l : List (String × String)) (p q : String × String)
    (h : q ∈ l) : q ∈ pairInsert l p := by
  rw [pairInsert]
  split
  · exact h
  · simp [h]

/-- A member after insertion was there or is the inserted pair. -/
theorem pairInsert_sub (l : List (String × String)) (p q : String × String)
    (h : q ∈ pairInsert l p) : q ∈ l ∨ q = p := by
  rw [pairInsert] at h
  split at h
  · exact Or.inl h
  · simpa using h

/-- A member after erasure was a member. -/
theorem pairErase_sub (l : List (String × String)) (p q : String × String)
    (h : q ∈ pairErase l p) : q ∈ l :=
  (List.mem_filter.mp h).1

/-- Erasing a different pair keeps membership. -/
theorem pairErase_mem_of_ne (l : List (String × String)) (p q : String × String)
    (hq : q ∈ l) (hne : q ≠ p) : q ∈ pairErase l p :=
  List.mem_filter.mpr ⟨hq, by simpa using hne⟩

/-- The erased pair is gone. -/
theorem pairErase_not_self (l : List (String × String)) (p : String × String) :
    p ∉ pairErase l p := by
  intro h
  have := (List.mem_filter.mp h).2
  simp at this

/-- seeType only touches the seen-types list. -/
theorem seeType_inUse (st : GCState) (t : String) : (seeType st t).inUse = st.inUse := by
  rw [seeType]; split <;> rfl

/-- seeType keeps the expire set. -/
theorem seeType_expire (st : GCState) (t : String) : (seeType st t).expire = st.expire := by
  rw [seeType]; split <;> rfl

/-- seeType keeps the store. -/
theorem seeType_store (st : GCState) (t : String) : (seeType st t).store = st.store := by
  rw [seeType]; split <;> rfl

/-- seeType keeps the expire keys list. -/
theorem seeType_relate (st : GCState) (t : String) :
    (seeType st t).relateExpire = st.relateExpire := by
  rw [seeType]; split <;> rfl

/-! ### The per-resource GC loop -/

/-- The in-use set only grows. -/
theorem gcResources_inUse_mono (pe : Bool) (items : List ResourceItem) :
    ∀ (st : GCState) (q : String × String),
      q ∈ st.inUse → q ∈ (gcResources pe items st).inUse := by
  induction items with
  | nil => intro st q h; exact h
  | cons res rest ih =>
    intro st q h
    rw [gcResources]
    split
    · exact ih _ _ (by rw [seeType_inUse]; exact h)
    · split
      · exact ih _ _ (by simp only [seeType_inUse]; exact List.mem_append_left _ h)
      · exact ih _ _ (by simp only []; rw [seeType_inUse]; exact h)

/-- The loop never touches the store. -/
theorem gcResources_store (pe : Bool) (items : List ResourceItem) :
    ∀ st : GCState, (gcResources pe items st).store = st.store := by
  induction items with
  | nil => intro st; rfl
  | cons res rest ih =>
    intro st
    rw [gcResources]
    split
    · rw [ih, seeType_store]
    · split
      · rw [ih]; simp only []; rw [seeType_store]
      · rw [ih]; simp only []; rw [seeType_store]

/-- The loop never touches the expired-keys list. -/
theorem gcResources_relate (pe : Bool) (items : List ResourceItem) :
    ∀ st : GCState, (gcResources pe items st).relateExpire = st.relateExpire := by
  induction items with
  | nil => intro st; rfl
  | cons res rest ih =>
    intro st
    rw [gcResources]
    split
    · rw [ih, seeType_relate]
    · split
      · rw [ih]; simp only []; rw [seeType_relate]
      · rw [ih]; simp only []; rw [seeType_relate]

/-- New in-use members come from the processed items. -/
theorem gcResources_inUse_sub (pe : Bool) (items : List ResourceItem) :
    ∀ (st : GCState) (q : String × String), q ∈ (gcResources pe items st).inUse →
      q ∈ st.inUse ∨ q ∈ items.map (fun r => (r.rtype, r.id)) := by
  induction items with
  | nil => intro st q h; exact Or.inl h
  | cons res rest ih =>
    intro st q h
    rw [gcResources] at h
    split at h
    · rcases ih _ _ h with h1 | h1
      · rw [seeType_inUse] at h1; exact Or.inl h1
      · exact Or.inr (by simp [h1])
    · split at h
      · rcases ih _ _ h with h1 | h1
        · simp only [seeType_inUse] at h1
          rcases List.mem_append.mp h1 with h2 | h2
          · exact Or.inl h2
          · simp at h2
            exact Or.inr (by simp [h2])
        · exact Or.inr (by simp [h1])
      · rcases ih _ _ h with h1 | h1
        · simp only [] at h1; rw [seeType_inUse] at h1; exact Or.inl h1
        · exact Or.inr (by simp [h1])

/-- New expire members come from the processed items. -/
theorem gcResources_expire_sub (pe : Bool) (items : List ResourceItem) :
    ∀ (st : GCState) (q : String × String), q ∈ (gcResources pe items st).expire →
      q ∈ st.expire ∨ q ∈ items.map (fun r => (r.rtype, r.id)) := by
  induction items with
  | nil => intro st q h; exact Or.inl h
  | cons res rest ih =>
    intro st q h
    rw [gcResources] at h
    split at h
    · rcases ih _ _ h with h1 | h1
      · rw [seeType_expire] at h1; exact Or.inl h1
      · exact Or.inr (by simp [h1])
    · split at h
      · rcases ih _ _ h with h1 | h1
        · simp only [seeType_expire] at h1
          exact Or.inl (pairErase_sub _ _ _ h1)
        · exact Or.inr (by simp [h1])
      · rcases ih _ _ h with h1 | h1
        · simp only [seeType_expire] at h1
          rcases pairInsert_sub _ _ _ h1 with h2 | h2
          · exact Or.inl h2
          · exact Or.inr (by simp [h2])
        · exact Or.inr (by simp [h1])

/-- An expire member not among the processed items survives the loop. -/
theorem gcResources_expire_keep (pe : Bool) (items : List ResourceItem) :
    ∀ (st : GCState) (q : String × String), q ∈ st.expire →
      q ∉ items.map (fun r => (r.rtype, r.id)) →
      q ∈ (gcResources pe items st).expire := by
  induction items with
  | nil => intro st q h _; exact h
  | cons res rest ih =>
    intro st q h hq
    have hqrest : q ∉ rest.map (fun r => (r.rtype, r.id)) := fun hh => hq (by simp [hh])
    have hqhead : q ≠ (res.rtype, res.id) := fun hh => hq (by simp [hh])
    rw [gcResources]
    split
    · exact ih _ _ (by rw [seeType_expire]; exact h) hqrest
    · split
      · exact ih _ _
          (pairErase_mem_of_ne _ _ _ (by rw [seeType_expire]; exact h) hqhead) hqrest
      · exact ih _ _
          (pairInsert_mem_mono _ _ _ (by rw [seeType_expire]; exact h)) hqrest

/-- With a present pod the loop only shrinks the expire set. -/
theorem gcResources_true_expire_sub (items : List ResourceItem) :
    ∀ (st : GCState) (q : String × String),
      q ∈ (gcResources true items st).expire → q ∈ st.expire := by
  induction items with
  | nil => intro st q h; exact h
  | cons res rest ih =>
    intro st q h
    rw [gcResources] at h
    split at h
    · rw [← seeType_expire st res.rtype]
      exact ih _ _ h
    · have h1 := ih _ _ h
      simp only [seeType_expire] at h1
      exact pairErase_sub _ _ _ h1

/-- With an absent pod the loop does not change the in-use set. -/
theorem gcResources_false_inUse (items : List ResourceItem) :
    ∀ st : GCState, (gcResources false items st).inUse = st.inUse := by
  induction items with
  | nil => intro st; rfl
  | cons res rest ih =>
    intro st
    rw [gcResources]
    split
    · rw [ih, seeType_inUse]
    · rw [if_neg (by decide), ih]
      exact seeType_inUse st res.rtype

/-- With an absent pod the loop only grows the expire set. -/
theorem gcResources_false_expire_mono (items : List ResourceItem) :
    ∀ (st : GCState) (q : String × String),
      q ∈ st.expire → q ∈ (gcResources false items st).expire := by
  induction items with
  | nil => intro st q h; exact h
  | cons res rest ih =>
    intro st q h
    rw [gcResources]
    split
    · exact ih _ _ (by rw [seeType_expire]; exact h)
    · rw [if_neg (by decide)]
      exact ih _ _ (pairInsert_mem_mono _ _ _ (by rw [seeType_expire]; exact h))

/-- Processing a present pod puts each of its pairs in use and out of the
expire set, provided none of them was already expired. -/
theorem gcResources_true_mem (items : List ResourceItem) :
    ∀ st : GCState,
      (∀ q ∈ items.map (fun r => (r.rtype, r.id)), q ∉ st.expire) →
      ∀ q ∈ items.map (fun r => (r.rtype, r.id)),
        q ∈ (gcResources true items st).inUse ∧ q ∉ (gcResources true items st).expire := by
  induction items with
  | nil => intro st hpre q hq; simp at hq
  | cons res rest ih =>
    intro st hpre q hq
    have hqh : q = (res.rtype, res.id) ∨ q ∈ rest.map (fun r => (r.rtype, r.id)) := by
      simpa using hq
    rw [gcResources]
    by_cases hmem : (res.rtype, res.id) ∈ (seeType st res.rtype).inUse
    · rw [if_pos hmem]
      rcases hqh with hq1 | hq1
      · subst hq1
        refine ⟨gcResources_inUse_mono true rest _ _ hmem, ?_⟩
        intro hc
        have := gcResources_true_expire_sub rest _ _ hc
        rw [seeType_expire] at this
        exact hpre _ (by simp) this
      · exact ih _ (fun q' hq' hc => hpre q' (by simp [hq']) (by rwa [seeType_expire] at hc))
          q hq1
    · rw [if_neg hmem, if_pos rfl]
      rcases hqh with hq1 | hq1
      · subst hq1
        refine ⟨gcResources_inUse_mono true rest _ _ (List.mem_append_right _ (by simp)), ?_⟩
        intro hc
        have := gcResources_true_expire_sub rest _ _ hc
        exact pairErase_not_self _ _ this
      · refine ih _ ?_ q hq1
        intro q' hq' hc
        have hc2 : q' ∈ (seeType st res.rtype).expire := pairErase_sub _ _ _ hc
        rw [seeType_expire] at hc2
        exact hpre q' (by simp [hq']) hc2

/-- Processing an absent pod expires each of its pairs, provided none of
them is already in use. -/
theorem gcResources_false_mem (items : List ResourceItem) :
    ∀ st : GCState,
      (∀ q ∈ items.map (fun r => (r.rtype, r.id)), q ∉ st.inUse) →
      ∀ q ∈ items.map (fun r => (r.rtype, r.id)),
        q ∈ (gcResources false items st).expire := by
  induction items with
  | nil => intro st hpre q hq; simp at hq
  | cons res rest ih =>
    intro st hpre q hq
    have hqh : q = (res.rtype, res.id) ∨ q ∈ rest.map (fun r => (r.rtype, r.id)) := by
      simpa using hq
    rw [gcResources]
    have hmem : (res.rtype, res.id) ∉ (seeType st res.rtype).inUse := by
      rw [seeType_inUse]
      exact hpre _ (by simp)
    rw [if_neg hmem, if_neg (by decide)]
    rcases hqh with hq1 | hq1
    · subst hq1
      exact gcResources_false_expire_mono rest _ _
        (pairInsert_mem_self _ _)
    · refine ih _ ?_ q hq1
      intro q' hq' hc
      rw [seeType_inUse] at hc
      exact hpre q' (by simp [hq']) hc

/-! ### The per-record GC step -/

/-- The per-record step only grows the in-use set. -/
theorem gcRecord_inUse_mono (live : List String) (st : GCState) (rec : PodResources)
    (q : String × String) (h : q ∈ st.inUse) : q ∈ (gcRecord live st rec).inUse := by
  rw [gcRecord]
  split
  · exact gcResources_inUse_mono _ _ _ _ h
  · split
    · exact gcResources_inUse_mono _ _ _ _ h
    · exact gcResources_inUse_mono _ _ _ _ h

/-- New in-use members of the per-record step come from the record. -/
theorem gcRecord_inUse_sub (live : List String) (st : GCState) (rec : PodResources)
    (q : String × String) (h : q ∈ (gcRecord live st rec).inUse) :
    q ∈ st.inUse ∨ q ∈ recPairs rec := by
  rw [gcRecord] at h
  split at h
  · exact gcResources_inUse_sub _ _ _ _ h
  · split at h
    · have h2 := gcResources_inUse_sub _ _ _ _ h
      exact h2
    · have h2 := gcResources_inUse_sub _ _ _ _ h
      exact h2

/-- New expire members of the per-record step come from the record. -/
theorem gcRecord_expire_sub (live : List String) (st : GCState) (rec : PodResources)
    (q : String × String) (h : q ∈ (gcRecord live st rec).expire) :
    q ∈ st.expire ∨ q ∈ recPairs rec := by
  rw [gcRecord] at h
  split at h
  · exact gcResources_expire_sub _ _ _ _ h
  · split at h
    · have h2 := gcResources_expire_sub _ _ _ _ h
      exact h2
    · have h2 := gcResources_expire_sub _ _ _ _ h
      exact h2

/-- An expire member not of this record survives the per-record step. -/
theorem gcRecord_expire_keep (live : List String) (st : GCState) (rec : PodResources)
    (q : String × String) (h : q ∈ st.expire) (hq : q ∉ recPairs rec) :
    q ∈ (gcRecord live st rec).expire := by
  rw [gcRecord]
  split
  · exact gcResources_expire_keep _ _ _ _ h hq
  · split
    · exact gcResources_expire_keep _ _ _ _ h hq
    · exact gcResources_expire_keep _ _ _ _ h hq

/-- The per-record step writes only its own key. -/
theorem gcRecord_store_other (live : List String) (st : GCState) (rec : PodResources)
    (k : String) (hk : k ≠ recKey rec) :
    storeGet (gcRecord live st rec).store k = storeGet st.store k := by
  rw [gcRecord]
  split
  · rw [gcResources_store]
  · split
    · rw [gcResources_store]
      exact storeGet_put_other _ _ _ _ hk
    · rw [gcResources_store]

/-- New expire keys of the per-record step only come from an absent
non-sticky record. -/
theorem gcRecord_relate_sub (live : List String) (st : GCState) (rec : PodResources)
    (q : String) (h : q ∈ (gcRecord live st rec).relateExpire) :
    q ∈ st.relateExpire ∨
      (q = recKey rec ∧ rec.podInfo.ipStickTime = 0 ∧ recKey rec ∉ live) := by
  rw [gcRecord] at h
  split at h
  · rw [gcResources_relate] at h
    exact Or.inl h
  · split at h
    · rw [gcResources_relate] at h
      exact Or.inl h
    · rw [gcResources_relate] at h
      rename_i hlive hstick
      rcases List.mem_append.mp h with h1 | h1
      · exact Or.inl h1
      · refine Or.inr ⟨by simpa using h1, by simpa using hstick, hlive⟩

/-- The expire-keys list only grows. -/
theorem gcRecord_relate_mono (live : List String) (st : GCState) (rec : PodResources)
    (q : String) (h : q ∈ st.relateExpire) : q ∈ (gcRecord live st rec).relateExpire := by
  rw [gcRecord]
  split
  · rw [gcResources_relate]
    exact h
  · split
    · rw [gcResources_relate]
      exact h
    · rw [gcResources_relate]
      exact List.mem_append_left _ h

/-! ### More store lemmas -/

/-- Entries after a write are old entries or the written pair. -/
theorem storePut_sub (s : Store) (k : String) (v : PodResources)
    (kv1 : String × PodResources) (h : kv1 ∈ storePut s k v) :
    kv1 ∈ s ∨ kv1 = (k, v) := by
  induction s with
  | nil =>
    rw [storePut] at h
    simpa using h
  | cons kv rest ih =>
    rw [storePut] at h
    split at h
    · rename_i hk
      rcases List.mem_cons.mp h with h1 | h1
      · exact Or.inr (by rw [h1, hk])
      · exact Or.inl (List.mem_cons_of_mem _ h1)
    · rcases List.mem_cons.mp h with h1 | h1
      · exact Or.inl (by simp [h1])
      · rcases ih h1 with h2 | h2
        · exact Or.inl (List.mem_cons_of_mem _ h2)
        · exact Or.inr h2

/-- Keys after a write are old keys or the written key. -/
theorem storePut_keys_sub (s : Store) (k : String) (v : PodResources) (x : String)
    (h : x ∈ (storePut s k v).map Prod.fst) : x ∈ s.map Prod.fst ∨ x = k := by
  rcases List.mem_map.mp h with ⟨kv1, hkv1, hx⟩
  rcases storePut_sub s k v kv1 hkv1 with h1 | h1
  · exact Or.inl (hx ▸ List.mem_map_of_mem _ h1)
  · exact Or.inr (by rw [← hx, h1])

/-- A write keeps the keys without duplicates. -/
theorem storePut_nodup (s : Store) (k : String) (v : PodResources)
    (h : (s.map Prod.fst).Nodup) : ((storePut s k v).map Prod.fst).Nodup := by
  induction s with
  | nil => simp [storePut]
  | cons kv rest ih =>
    rw [storePut]
    rw [List.map_cons, List.nodup_cons] at h
    obtain ⟨hk0, hrest⟩ := h
    split
    · rw [List.map_cons, List.nodup_cons]
      exact ⟨hk0, hrest⟩
    · rename_i hne
      rw [List.map_cons, List.nodup_cons]
      refine ⟨?_, ih hrest⟩
      intro hc
      rcases storePut_keys_sub rest k v kv.1 hc with h1 | h1
      · exact hk0 h1
      · exact hne h1

/-- The deletion result is a sublist. -/
theorem storeDelete_sublist (s : Store) (k : String) : (storeDelete s k).Sublist s := by
  induction s with
  | nil => simp [storeDelete]
  | cons kv rest ih =>
    rcases kv with ⟨k0, v0⟩
    rw [storeDelete]
    split
    · exact ih.cons _
    · exact ih.cons₂ _

/-- A successful read names an entry of the store. -/
theorem storeGet_mem (s : Store) (k : String) (v : PodResources)
    (h : storeGet s k = some v) : (k, v) ∈ s := by
  induction s with
  | nil => simp [storeGet] at h
  | cons kv rest ih =>
    rw [storeGet] at h
    split at h
    · rename_i hk
      rcases kv with ⟨k0, v0⟩
      simp only [Option.some.injEq] at h
      simp [← h, hk.symm]
    · exact List.mem_cons_of_mem _ (ih h)

/-- With unique keys, an entry of the store is read back. -/
theorem storeGet_of_mem_nodup (s : Store) (k : String) (v : PodResources)
    (hmem : (k, v) ∈ s) (hnd : (s.map Prod.fst).Nodup) : storeGet s k = some v := by
  induction s with
  | nil => simp at hmem
  | cons kv rest ih =>
    rcases kv with ⟨k0, v0⟩
    rw [List.map_cons, List.nodup_cons] at hnd
    obtain ⟨hk0, hrest⟩ := hnd
    rw [storeGet]
    by_cases hk : k0 = k
    · rw [if_pos hk]
      rcases List.mem_cons.mp hmem with h1 | h1
      · simp only [Prod.mk.injEq] at h1
        rw [h1.2]
      · exact absurd (List.mem_map_of_mem Prod.fst h1) (hk ▸ hk0)
    · rw [if_neg hk]
      rcases List.mem_cons.mp hmem with h1 | h1
      · simp only [Prod.mk.injEq] at h1
        exact absurd h1.1.symm hk
      · exact ih h1 hrest

/-! ### The record fold of a GC scan -/

/-- The in-use set grows over the whole fold. -/
theorem gcFold_inUse_mono (live : List String) (l : Store) :
    ∀ (st : GCState) (q : String × String), q ∈ st.inUse →
      q ∈ (l.foldl (fun st kv => gcRecord live st kv.2) st).inUse := by
  induction l with
  | nil => intro st q h; exact h
  | cons kv rest ih =>
    intro st q h
    exact ih _ _ (gcRecord_inUse_mono live st kv.2 q h)

/-- New in-use members of the fold come from the processed records. -/
theorem gcFold_inUse_sub (live : List String) (l : Store) :
    ∀ (st : GCState) (q : String × String),
      q ∈ (l.foldl (fun st kv => gcRecord live st kv.2) st).inUse →
      q ∈ st.inUse ∨ ∃ kv ∈ l, q ∈ recPairs kv.2 := by
  induction l with
  | nil => intro st q h; exact Or.inl h
  | cons kv rest ih =>
    intro st q h
    rcases ih _ _ h with h1 | ⟨kv1, hkv1, hq⟩
    · rcases gcRecord_inUse_sub live st kv.2 q h1 with h2 | h2
      · exact Or.inl h2
      · exact Or.inr ⟨kv, by simp, h2⟩
    · exact Or.inr ⟨kv1, by simp [hkv1], hq⟩

/-- New expire members of the fold come from the processed records. -/
theorem gcFold_expire_sub (live : List String) (l : Store) :
    ∀ (st : GCState) (q : String × String),
      q ∈ (l.foldl (fun st kv => gcRecord live st kv.2) st).expire →
      q ∈ st.expire ∨ ∃ kv ∈ l, q ∈ recPairs kv.2 := by
  induction l with
  | nil => intro st q h; exact Or.inl h
  | cons kv rest ih =>
    intro st q h
    rcases ih _ _ h with h1 | ⟨kv1, hkv1, hq⟩
    · rcases gcRecord_expire_sub live st kv.2 q h1 with h2 | h2
      · exact Or.inl h2
      · exact Or.inr ⟨kv, by simp, h2⟩
    · exact Or.inr ⟨kv1, by simp [hkv1], hq⟩

/-- An expire member foreign to every processed record survives the
fold. -/
theorem gcFold_expire_keep (live : List String) (l : Store) :
    ∀ (st : GCState) (q : String × String), q ∈ st.expire →
      (∀ kv ∈ l, q ∉ recPairs kv.2) →
      q ∈ (l.foldl (fun st kv => gcRecord live st kv.2) st).expire := by
  induction l with
  | nil => intro st q h _; exact h
  | cons kv rest ih =>
    intro st q h hq
    exact ih _ _ (gcRecord_expire_keep live st kv.2 q h (hq kv (by simp)))
      (fun kv1 hkv1 => hq kv1 (by simp [hkv1]))

/-- A key foreign to every processed record keeps its store value over
the fold. -/
theorem gcFold_store_other (live : List String) (l : Store) :
    ∀ (st : GCState) (k : String), (∀ kv ∈ l, k ≠ recKey kv.2) →
      storeGet (l.foldl (fun st kv => gcRecord live st kv.2) st).store k =
        storeGet st.store k := by
  induction l with
  | nil => intro st k _; rfl
  | cons kv rest ih =>
    intro st k hk
    rw [List.foldl_cons, ih _ _ (fun kv1 hkv1 => hk kv1 (by simp [hkv1])),
      gcRecord_store_other live st kv.2 k (hk kv (by simp))]

/-- New expire keys of the fold come from absent non-sticky records. -/
theorem gcFold_relate_sub (live : List String) (l : Store) :
    ∀ (st : GCState) (q : String),
      q ∈ (l.foldl (fun st kv => gcRecord live st kv.2) st).relateExpire →
      q ∈ st.relateExpire ∨
        ∃ kv ∈ l, q = recKey kv.2 ∧ kv.2.podInfo.ipStickTime = 0 ∧ recKey kv.2 ∉ live := by
  induction l with
  | nil => intro st q h; exact Or.inl h
  | cons kv rest ih =>
    intro st q h
    rcases ih _ _ h with h1 | ⟨kv1, hkv1, hq⟩
    · rcases gcRecord_relate_sub live st kv.2 q h1 with h2 | h2
      · exact Or.inl h2
      · exact Or.inr ⟨kv, by simp, h2⟩
    · exact Or.inr ⟨kv1, by simp [hkv1], hq⟩

/-- The expire-keys list grows over the fold. -/
theorem gcFold_relate_mono (live : List String) (l : Store) :
    ∀ (st : GCState) (q : String), q ∈ st.relateExpire →
      q ∈ (l.foldl (fun st kv => gcRecord live st kv.2) st).relateExpire := by
  induction l with
  | nil => intro st q h; exact h
  | cons kv rest ih =>
    intro st q h
    exact ih _ _ (gcRecord_relate_mono live st kv.2 q h)

/-- Entries after the per-record step are old entries or the sticky
rewrite of the record. -/
theorem gcRecord_store_sub (live : List String) (st : GCState) (rec : PodResources)
    (kv1 : String × PodResources) (h : kv1 ∈ (gcRecord live st rec).store) :
    kv1 ∈ st.store ∨ kv1 = (recKey rec, stickZero rec) := by
  rw [gcRecord] at h
  split at h
  · rw [gcResources_store] at h
    exact Or.inl h
  · split at h
    · rw [gcResources_store] at h
      exact storePut_sub _ _ _ _ h
    · rw [gcResources_store] at h
      exact Or.inl h

/-- Entries after the fold are old entries or sticky rewrites of
processed records. -/
theorem gcFold_store_sub (live : List String) (l : Store) :
    ∀ (st : GCState) (kv1 : String × PodResources),
      kv1 ∈ (l.foldl (fun st kv => gcRecord live st kv.2) st).store →
      kv1 ∈ st.store ∨ ∃ kv ∈ l, kv1 = (recKey kv.2, stickZero kv.2) := by
  induction l with
  | nil => intro st kv1 h; exact Or.inl h
  | cons kv rest ih =>
    intro st kv1 h
    rcases ih _ _ h with h1 | ⟨kv2, hkv2, hq⟩
    · rcases gcRecord_store_sub live st kv.2 kv1 h1 with h2 | h2
      · exact Or.inl h2
      · exact Or.inr ⟨kv, by simp, h2⟩
    · exact Or.inr ⟨kv2, by simp [hkv2], hq⟩

/-- The per-record step keeps the store keys without duplicates. -/
theorem gcRecord_store_nodup (live : List String) (st : GCState) (rec : PodResources)
    (h : (st.store.map Prod.fst).Nodup) :
    ((gcRecord live st rec).store.map Prod.fst).Nodup := by
  rw [gcRecord]
  split
  · rw [gcResources_store]
    exact h
  · split
    · rw [gcResources_store]
      exact storePut_nodup _ _ _ h
    · rw [gcResources_store]
      exact h

/-- The fold keeps the store keys without duplicates. -/
theorem gcFold_store_nodup (live : List String) (l : Store) :
    ∀ st : GCState, (st.store.map Prod.fst).Nodup →
      ((l.foldl (fun st kv => gcRecord live st kv.2) st).store.map Prod.fst).Nodup := by
  induction l with
  | nil => intro st h; exact h
  | cons kv rest ih =>
    intro st h
    exact ih _ (gcRecord_store_nodup live st kv.2 h)

/-- The deletion fold yields a sublist of the store. -/
theorem foldDelete_sublist (ks : List String) :
    ∀ s : Store, (ks.foldl storeDelete s).Sublist s := by
  induction ks with
  | nil => intro s; exact List.Sublist.refl s
  | cons k0 ks1 ih =>
    intro s
    exact (ih (storeDelete s k0)).trans (storeDelete_sublist s k0)

/-- Facts about the scan when the focused record is absent: its pairs
enter neither set from other records, the prefix of the fold does not
touch its key, and the expire-keys list names it only through itself. -/
theorem gcScan_focus (live : List String) (store : Store) (rec : PodResources)
    (hnd : (store.map Prod.fst).Nodup)
    (hcoh : ∀ kv ∈ store, kv.1 = recKey kv.2)
    (hmem : (recKey rec, rec) ∈ store)
    (habs : recKey rec ∉ live)
    (hdisj : ∀ kv ∈ store, kv.1 ≠ recKey rec → ∀ q ∈ recPairs kv.2, q ∉ recPairs rec) :
    (rec.podInfo.ipStickTime ≠ 0 →
      storeGet (gcScan live store).store (recKey rec) = some (stickZero rec) ∧
      (∀ q ∈ recPairs rec, q ∈ (gcScan live store).inUse ∧ q ∉ (gcScan live store).expire) ∧
      recKey rec ∉ (gcScan live store).relateExpire) ∧
    (rec.podInfo.ipStickTime = 0 →
      (∀ q ∈ recPairs rec, q ∈ (gcScan live store).expire) ∧
      recKey rec ∈ (gcScan live store).relateExpire) := by
  rcases List.append_of_mem hmem with ⟨A, B, hsplit⟩
  have hndAB := hnd
  rw [hsplit, List.map_append, List.map_cons] at hndAB
  have hndAB2 := List.nodup_middle.mp hndAB
  rcases List.nodup_cons.mp hndAB2 with ⟨hkeyAB, _⟩
  have hkeyAB2 : recKey rec ∉ List.map Prod.fst A ++ List.map Prod.fst B := hkeyAB
  have hkeyA : ∀ kv ∈ A, kv.1 ≠ recKey rec := by
    intro kv hkv hc
    exact hkeyAB2 (hc ▸ List.mem_append_left _ (List.mem_map_of_mem Prod.fst hkv))
  have hkeyB : ∀ kv ∈ B, kv.1 ≠ recKey rec := by
    intro kv hkv hc
    exact hkeyAB2 (hc ▸ List.mem_append_right _ (List.mem_map_of_mem Prod.fst hkv))
  have hmemA : ∀ kv ∈ A, kv ∈ store := by
    intro kv hkv; rw [hsplit]; exact List.mem_append_left _ hkv
  have hmemB : ∀ kv ∈ B, kv ∈ store := by
    intro kv hkv
    rw [hsplit]
    exact List.mem_append_right _ (List.mem_cons_of_mem _ hkv)
  have hscan : gcScan live store =
      B.foldl (fun st kv => gcRecord live st kv.2)
        (gcRecord live (A.foldl (fun st kv => gcRecord live st kv.2)
          { store := store }) rec) := by
    have h0 : store.foldl (fun st kv => gcRecord live st kv.2)
        ({ store := store } : GCState) =
        (A ++ (recKey rec, rec) :: B).foldl (fun st kv => gcRecord live st kv.2)
          ({ store := store } : GCState) := by
      rw [← hsplit]
    rw [gcScan, h0, List.foldl_append, List.foldl_cons]
  set stA := A.foldl (fun st kv => gcRecord live st kv.2) ({ store := store } : GCState)
    with hstA
  have hAinUse : ∀ q ∈ recPairs rec, q ∉ stA.inUse := by
    intro q hq hc
    rcases gcFold_inUse_sub live A _ q hc with h1 | ⟨kv, hkv, h1⟩
    · simp at h1
    · exact hdisj kv (hmemA kv hkv) (hkeyA kv hkv) q h1 hq
  have hAexpire : ∀ q ∈ recPairs rec, q ∉ stA.expire := by
    intro q hq hc
    rcases gcFold_expire_sub live A _ q hc with h1 | ⟨kv, hkv, h1⟩
    · simp at h1
    · exact hdisj kv (hmemA kv hkv) (hkeyA kv hkv) q h1 hq
  have hArelate : recKey rec ∉ stA.relateExpire := by
    intro hc
    rcases gcFold_relate_sub live A _ _ hc with h1 | ⟨kv, hkv, h1, _⟩
    · simp at h1
    · exact hkeyA kv hkv ((hcoh kv (hmemA kv hkv)).trans h1.symm)
  have hAstore : storeGet stA.store (recKey rec) = storeGet store (recKey rec) := by
    have := gcFold_store_other live A ({ store := store } : GCState) (recKey rec)
      (fun kv hkv => by
        intro hc
        exact hkeyA kv hkv ((hcoh kv (hmemA kv hkv)).trans hc.symm))
    exact this
  have hBkeys : ∀ kv ∈ B, recKey rec ≠ recKey kv.2 := by
    intro kv hkv hc
    exact hkeyB kv hkv ((hcoh kv (hmemB kv hkv)).trans hc.symm)
  have hBdisj : ∀ kv ∈ B, ∀ q ∈ recPairs kv.2, q ∉ recPairs rec := by
    intro kv hkv
    exact hdisj kv (hmemB kv hkv) (hkeyB kv hkv)
  constructor
  · intro hstick
    have hrec : gcRecord live stA rec =
        gcResources true (stickZero rec).resources
          { stA with store := storePut stA.store (recKey rec) (stickZero rec) } := by
      rw [gcRecord, if_neg (by simpa using habs), if_pos (by simpa using hstick)]
    have hpairs := gcResources_true_mem (stickZero rec).resources
      { stA with store := storePut stA.store (recKey rec) (stickZero rec) }
      (fun q hq => hAexpire q hq)
    refine ⟨?_, ?_, ?_⟩
    · rw [hscan, gcFold_store_other live B _ _ hBkeys, hrec, gcResources_store]
      exact storeGet_put_self _ _ _
    · intro q hq
      constructor
      · rw [hscan]
        exact gcFold_inUse_mono live B _ q (by rw [hrec]; exact (hpairs q hq).1)
      · rw [hscan]
        intro hc
        rcases gcFold_expire_sub live B _ q hc with h1 | ⟨kv, hkv, h1⟩
        · rw [hrec] at h1
          exact (hpairs q hq).2 h1
        · exact hBdisj kv hkv q h1 hq
    · rw [hscan]
      intro hc
      rcases gcFold_relate_sub live B _ _ hc with h1 | ⟨kv, hkv, h1, _⟩
      · rw [hrec, gcResources_relate] at h1
        exact hArelate h1
      · exact hBkeys kv hkv h1
  · intro hstick
    have hrec : gcRecord live stA rec =
        gcResources false rec.resources
          { stA with relateExpire := stA.relateExpire ++ [recKey rec] } := by
      rw [gcRecord, if_neg (by simpa using habs), if_neg (by simpa using hstick)]
    have hpairs := gcResources_false_mem rec.resources
      { stA with relateExpire := stA.relateExpire ++ [recKey rec] }
      (fun q hq => hAinUse q hq)
    constructor
    · intro q hq
      rw [hscan]
      refine gcFold_expire_keep live B _ q ?_ (fun kv hkv hc => hBdisj kv hkv q hc hq)
      rw [hrec]
      exact hpairs q hq
    · rw [hscan]
      refine gcFold_relate_mono live B _ _ ?_
      rw [hrec, gcResources_relate]
      exact List.mem_append_right _ (by simp)

/-- With all managers succeeding, the pass completes. -/
theorem gcTick_gcDone (live : List String) (store : Store)
    (mgrPresent mgrGCOk : String → Bool) (hok : ∀ t, mgrGCOk t = true) :
    ((gcScan live store).typesSeen.all (fun t => !(mgrPresent t && !(mgrGCOk t)))) = true := by
  rw [List.all_eq_true]
  intro t _
  rw [hok t]
  simp

/-- On a completed pass the tick store is the scan store minus the
expired keys. -/
theorem gcTick_store_done (live : List String) (store : Store)
    (mgrPresent mgrGCOk : String → Bool)
    (hdone : ((gcScan live store).typesSeen.all
      (fun t => !(mgrPresent t && !(mgrGCOk t)))) = true) :
    (gcTick live store mgrPresent mgrGCOk).store =
      (gcScan live store).relateExpire.foldl storeDelete (gcScan live store).store := by
  rw [gcTick]
  simp only [hdone, if_pos]

/-- Tick store entries are store entries or sticky rewrites. -/
theorem gcTick_store_inherit (live : List String) (store : Store)
    (mgrPresent mgrGCOk : String → Bool) :
    ∀ kv1 ∈ (gcTick live store mgrPresent mgrGCOk).store,
      kv1 ∈ store ∨ ∃ kv ∈ store, kv1 = (recKey kv.2, stickZero kv.2) := by
  intro kv1 h
  have hsub : kv1 ∈ (gcScan live store).store := by
    by_cases hd : ((gcScan live store).typesSeen.all
        (fun t => !(mgrPresent t && !(mgrGCOk t)))) = true
    · rw [gcTick_store_done live store mgrPresent mgrGCOk hd] at h
      exact (foldDelete_sublist _ _).subset h
    · have heq : (gcTick live store mgrPresent mgrGCOk).store = (gcScan live store).store := by
        rw [gcTick]
        simp only [if_neg hd]
      rw [heq] at h
      exact h
  have := gcFold_store_sub live store ({ store := store } : GCState) kv1 hsub
  simpa using this

/-- The tick keeps the store keys without duplicates. -/
theorem gcTick_store_nodup (live : List String) (store : Store)
    (mgrPresent mgrGCOk : String → Bool) (hnd : (store.map Prod.fst).Nodup) :
    (((gcTick live store mgrPresent mgrGCOk).store).map Prod.fst).Nodup := by
  have hscan := gcFold_store_nodup live store ({ store := store } : GCState) hnd
  by_cases hd : ((gcScan live store).typesSeen.all
      (fun t => !(mgrPresent t && !(mgrGCOk t)))) = true
  · rw [gcTick_store_done live store mgrPresent mgrGCOk hd]
    exact hscan.sublist ((foldDelete_sublist _ _).map Prod.fst)
  · have heq : (gcTick live store mgrPresent mgrGCOk).store = (gcScan live store).store := by
      rw [gcTick]
      simp only [if_neg hd]
    rw [heq]
    exact hscan

/-- The sticky phase of a tick: record downgraded and kept, resources in
use, nothing expired for that pod. -/
theorem gcTick_sticky (live : List String) (store : Store)
    (mgrPresent mgrGCOk : String → Bool) (rec : PodResources)
    (hnd : (store.map Prod.fst).Nodup)
    (hcoh : ∀ kv ∈ store, kv.1 = recKey kv.2)
    (hmem : (recKey rec, rec) ∈ store)
    (habs : recKey rec ∉ live)
    (hdisj : ∀ kv ∈ store, kv.1 ≠ recKey rec → ∀ q ∈ recPairs kv.2, q ∉ recPairs rec)
    (hok : ∀ t, mgrGCOk t = true)
    (hstick : rec.podInfo.ipStickTime ≠ 0) :
    storeGet (gcTick live store mgrPresent mgrGCOk).store (recKey rec) =
      some (stickZero rec) ∧
    (∀ q ∈ recPairs rec, q ∈ (gcTick live store mgrPresent mgrGCOk).inUse ∧
      q ∉ (gcTick live store mgrPresent mgrGCOk).expire) ∧
    recKey rec ∉ (gcTick live store mgrPresent mgrGCOk).relateExpire := by
  obtain ⟨hsticky, _⟩ := gcScan_focus live store rec hnd hcoh hmem habs hdisj
  obtain ⟨hget, hpairs, hrel⟩ := hsticky hstick
  refine ⟨?_, hpairs, hrel⟩
  rw [gcTick_store_done live store mgrPresent mgrGCOk
    (gcTick_gcDone live store mgrPresent mgrGCOk hok)]
  rw [storeGet_foldDelete_other _ _ _ hrel]
  exact hget

/-- The expiry phase of a tick: resources expired, key listed, record
deleted. -/
theorem gcTick_expire (live : List String) (store : Store)
    (mgrPresent mgrGCOk : String → Bool) (rec : PodResources)
    (hnd : (store.map Prod.fst).Nodup)
    (hcoh : ∀ kv ∈ store, kv.1 = recKey kv.2)
    (hmem : (recKey rec, rec) ∈ store)
    (habs : recKey rec ∉ live)
    (hdisj : ∀ kv ∈ store, kv.1 ≠ recKey rec → ∀ q ∈ recPairs kv.2, q ∉ recPairs rec)
    (hok : ∀ t, mgrGCOk t = true)
    (hstick : rec.podInfo.ipStickTime = 0) :
    (∀ q ∈ recPairs rec, q ∈ (gcTick live store mgrPresent mgrGCOk).expire) ∧
    recKey rec ∈ (gcTick live store mgrPresent mgrGCOk).relateExpire ∧
    storeGet (gcTick live store mgrPresent mgrGCOk).store (recKey rec) = none := by
  obtain ⟨_, hexp⟩ := gcScan_focus live store rec hnd hcoh hmem habs hdisj
  obtain ⟨hpairs, hrel⟩ := hexp hstick
  refine ⟨hpairs, hrel, ?_⟩
  rw [gcTick_store_done live store mgrPresent mgrGCOk
    (gcTick_gcDone live store mgrPresent mgrGCOk hok)]
  exact storeGet_foldDelete_mem _ _ _ hrel

/-- C4: two-phase sticky garbage collection.  A stored record of an
absent pod with non-zero `IPStickTime` is rewritten with
`IPStickTime = 0` on the first fully successful tick, its resources are
treated as in use and not expired, and the record survives; the next tick
(pod still absent) expires its resources and deletes the record.  With
`IPStickTime = 0` a single tick expires and deletes.  Hypotheses: store
keys are unique and match their records, resource pairs are not shared
across records, and every manager GarbageCollection succeeds. -/
theorem gc_two_phase (live : List String) (store : Store)
    (mgrPresent mgrGCOk : String → Bool) (rec : PodResources)
    (hnd : (store.map Prod.fst).Nodup)
    (hcoh : ∀ kv ∈ store, kv.1 = recKey kv.2)
    (hmem : (recKey rec, rec) ∈ store)
    (habs : recKey rec ∉ live)
    (hdisj : ∀ kv ∈ store, kv.1 ≠ recKey rec → ∀ q ∈ recPairs kv.2, q ∉ recPairs rec)
    (hok : ∀ t, mgrGCOk t = true) :
    (rec.podInfo.ipStickTime ≠ 0 →
      storeGet (gcTick live store mgrPresent mgrGCOk).store (recKey rec) =
        some (stickZero rec) ∧
      (∀ q ∈ recPairs rec, q ∈ (gcTick live store mgrPresent mgrGCOk).inUse ∧
        q ∉ (gcTick live store mgrPresent mgrGCOk).expire) ∧
      recKey rec ∉ (gcTick live store mgrPresent mgrGCOk).relateExpire ∧
      (∀ q ∈ recPairs rec, q ∈ (gcTick live (gcTick live store mgrPresent mgrGCOk).store
        mgrPresent mgrGCOk).expire) ∧
      recKey rec ∈ (gcTick live (gcTick live store mgrPresent mgrGCOk).store
        mgrPresent mgrGCOk).relateExpire ∧
      storeGet (gcTick live (gcTick live store mgrPresent mgrGCOk).store
        mgrPresent mgrGCOk).store (recKey rec) = none) ∧
    (rec.podInfo.ipStickTime = 0 →
      (∀ q ∈ recPairs rec, q ∈ (gcTick live store mgrPresent mgrGCOk).expire) ∧
      recKey rec ∈ (gcTick live store mgrPresent mgrGCOk).relateExpire ∧
      storeGet (gcTick live store mgrPresent mgrGCOk).store (recKey rec) = none) := by
  constructor
  · intro hstick
    obtain ⟨hget, hpairs, hrel⟩ :=
      gcTick_sticky live store mgrPresent mgrGCOk rec hnd hcoh hmem habs hdisj hok hstick
    set store1 := (gcTick live store mgrPresent mgrGCOk).store with hstore1
    have hnd1 : (store1.map Prod.fst).Nodup :=
      gcTick_store_nodup live store mgrPresent mgrGCOk hnd
    have hcoh1 : ∀ kv ∈ store1, kv.1 = recKey kv.2 := by
      intro kv hkv
      rcases gcTick_store_inherit live store mgrPresent mgrGCOk kv hkv with h1 | ⟨kv2, hkv2, h1⟩
      · exact hcoh kv h1
      · rw [h1]
        rfl
    have hmem1 : (recKey (stickZero rec), stickZero rec) ∈ store1 :=
      storeGet_mem _ _ _ hget
    have habs1 : recKey (stickZero rec) ∉ live := habs
    have hdisj1 : ∀ kv ∈ store1, kv.1 ≠ recKey (stickZero rec) →
        ∀ q ∈ recPairs kv.2, q ∉ recPairs (stickZero rec) := by
      intro kv hkv hne q hq
      rcases gcTick_store_inherit live store mgrPresent mgrGCOk kv hkv with h1 | ⟨kv2, hkv2, h1⟩
      · exact hdisj kv h1 hne q hq
      · have hne2 : kv2.1 ≠ recKey rec := by
          rw [hcoh kv2 hkv2]
          rw [h1] at hne
          exact hne
        rw [h1] at hq
        exact hdisj kv2 hkv2 hne2 q hq
    obtain ⟨hpairs2, hrel2, hdel2⟩ :=
      gcTick_expire live store1 mgrPresent mgrGCOk (stickZero rec)
        hnd1 hcoh1 hmem1 habs1 hdisj1 hok rfl
    exact ⟨hget, hpairs, hrel, hpairs2, hrel2, hdel2⟩
  · intro hstick
    exact gcTick_expire live store mgrPresent mgrGCOk rec hnd hcoh hmem habs hdisj hok hstick

/-- C4 witness: a sticky record over two concrete ticks. -/
theorem gc_two_phase_witness :
    (sampleStickyRec.podInfo.ipStickTime ≠ 0) ∧
    ((recKey sampleStickyRec, sampleStickyRec) ∈ sampleStickyStore) ∧
    storeGet (gcTick [] sampleStickyStore (fun _ => true) (fun _ => true)).store
        (recKey sampleStickyRec) = some (stickZero sampleStickyRec) ∧
    ((ResourceTypeENIIP, "eni-1.10.0.0.9") ∈
      (gcTick [] sampleStickyStore (fun _ => true) (fun _ => true)).inUse) ∧
    storeGet (gcTick []
        (gcTick [] sampleStickyStore (fun _ => true) (fun _ => true)).store
        (fun _ => true) (fun _ => true)).store
      (recKey sampleStickyRec) = none := by
  have h := (gc_two_phase [] sampleStickyStore (fun _ => true) (fun _ => true)
      sampleStickyRec
      (by decide) (by decide) (by decide) (by decide) (by decide) (fun _ => rfl)).1
      (by decide)
  exact ⟨by decide, by decide, h.1,
    (h.2.1 (ResourceTypeENIIP, "eni-1.10.0.0.9") (by decide)).1,
    h.2.2.2.2.2⟩

/-! ### Lemmas about the three-way mapping `toResMapping` -/

/-- Properties indexed by the entry key survive an upsert whose inserted
and updated values have them. -/
theorem mappingUpsert_forall (P : String → PodMapping → Prop)
    (all : List (String × PodMapping)) (key : String) (ifAbsent : PodMapping)
    (update : PodMapping → PodMapping)
    (hall : ∀ kv ∈ all, P kv.1 kv.2) (habs : P key ifAbsent)
    (hupd : ∀ m, P key m → P key (update m)) :
    ∀ kv ∈ mappingUpsert all key ifAbsent update, P kv.1 kv.2 := by
  intro kv hkv
  rw [mappingUpsert] at hkv
  split at hkv
  · rcases List.mem_map.mp hkv with ⟨kv1, hkv1, heq⟩
    by_cases hk : kv1.1 = key
    · rw [if_pos hk] at heq
      rw [← heq]
      have h1 : P key kv1.2 := hk ▸ hall kv1 hkv1
      have h2 := hupd kv1.2 h1
      rw [hk]
      exact h2
    · rw [if_neg hk] at heq
      rw [← heq]
      exact hall kv1 hkv1
  · rcases List.mem_append.mp hkv with h | h
    · exact hall kv h
    · rw [List.mem_singleton.mp h]
      exact habs

/-- The pool-local pass preserves a key-indexed property. -/
theorem mappingLocalPass_forall (P : String → PodMapping → Prop) :
    ∀ ids : List String,
      (∀ i, P i { localResID := i }) →
      (∀ i m, P i m → P i { m with localResID := i }) →
      ∀ all, (∀ kv ∈ all, P kv.1 kv.2) →
        ∀ kv ∈ mappingLocalPass all ids, P kv.1 kv.2 := by
  intro ids
  induction ids with
  | nil => intro _ _ all hall; exact hall
  | cons i rest ih =>
    intro habs hupd all hall
    exact ih habs hupd _
      (mappingUpsert_forall P all i _ _ hall (habs i) (hupd i))

/-- The cloud-remote pass preserves a key-indexed property. -/
theorem mappingRemotePass_forall (P : String → PodMapping → Prop) :
    ∀ ids : List String,
      (∀ i, P i { remoteResID := i }) →
      (∀ i m, P i m → P i { m with remoteResID := i }) →
      ∀ all, (∀ kv ∈ all, P kv.1 kv.2) →
        ∀ kv ∈ mappingRemotePass all ids, P kv.1 kv.2 := by
  intro ids
  induction ids with
  | nil => intro _ _ all hall; exact hall
  | cons i rest ih =>
    intro habs hupd all hall
    exact ih habs hupd _
      (mappingUpsert_forall P all i _ _ hall (habs i) (hupd i))

/-- One pod of the binding pass preserves a key-indexed property. -/
theorem mappingPodResFold_forall (P : String → PodMapping → Prop) (p : PodResources) :
    ∀ ress : List ResourceItem,
      (∀ r ∈ ress,
        P r.id { name := p.podInfo.name, ns := p.podInfo.ns, podBindResID := r.id }) →
      (∀ r ∈ ress, ∀ m, P r.id m → P r.id (mappingPodUpdate p r.id m)) →
      ∀ all, (∀ kv ∈ all, P kv.1 kv.2) →
        ∀ kv ∈ ress.foldl (fun all res =>
            if res.rtype = ResourceTypeEIP then
              all
            else
              mappingUpsert all res.id
                { name := p.podInfo.name, ns := p.podInfo.ns, podBindResID := res.id }
                (mappingPodUpdate p res.id)) all,
          P kv.1 kv.2 := by
  intro ress
  induction ress with
  | nil => intro _ _ all hall; exact hall
  | cons r rest ih =>
    intro habs hupd all hall
    rw [List.foldl_cons]
    by_cases hr : r.rtype = ResourceTypeEIP
    · rw [if_pos hr]
      exact ih (fun q hq => habs q (List.mem_cons_of_mem r hq))
        (fun q hq => hupd q (List.mem_cons_of_mem r hq)) all hall
    · rw [if_neg hr]
      exact ih (fun q hq => habs q (List.mem_cons_of_mem r hq))
        (fun q hq => hupd q (List.mem_cons_of_mem r hq)) _
        (mappingUpsert_forall P all r.id _ _ hall
          (habs r (List.mem_cons_self r rest))
          (hupd r (List.mem_cons_self r rest)))

/-- The pod-binding pass preserves a key-indexed property. -/
theorem mappingPodPass_forall (P : String → PodMapping → Prop) :
    ∀ pods : List PodResources,
      (∀ p ∈ pods, ∀ r ∈ p.resources,
        P r.id { name := p.podInfo.name, ns := p.podInfo.ns, podBindResID := r.id }) →
      (∀ p ∈ pods, ∀ r ∈ p.resources, ∀ m, P r.id m → P r.id (mappingPodUpdate p r.id m)) →
      ∀ all, (∀ kv ∈ all, P kv.1 kv.2) →
        ∀ kv ∈ mappingPodPass all pods, P kv.1 kv.2 := by
  intro pods
  induction pods with
  | nil => intro _ _ all hall; exact hall
  | cons p rest ih =>
    intro habs hupd all hall
    exact ih (fun q hq => habs q (List.mem_cons_of_mem p hq))
      (fun q hq => hupd q (List.mem_cons_of_mem p hq)) _
      (mappingPodResFold_forall P p p.resources
        (habs p (List.mem_cons_self p rest))
        (hupd p (List.mem_cons_self p rest)) all hall)

/-- The entry the pod-binding pass inserts for an absent key satisfies
the bound invariant. -/
theorem mappingPodAbsent_inv (p : PodResources) (key : String)
    (hpn : p.podInfo.name ≠ "") (hk : key ≠ "") :
    mappingInv key { name := p.podInfo.name, ns := p.podInfo.ns, podBindResID := key } :=
  Or.inr ⟨hpn, rfl, hk, Or.inl rfl, Or.inl rfl,
    iff_of_false Bool.false_ne_true (fun hc => hk hc.1.symm)⟩

/-- The pod-binding update preserves the join invariant. -/
theorem mappingPodUpdate_inv (p : PodResources) (key : String)
    (hpn : p.podInfo.name ≠ "") (hk : key ≠ "") (m : PodMapping)
    (h : mappingInv key m) : mappingInv key (mappingPodUpdate p key m) := by
  simp only [mappingPodUpdate]
  split
  · rename_i hcond
    exact Or.inr ⟨hpn, rfl, hk, Or.inr hcond.1.symm,
      Or.inr (hcond.2.symm.trans hcond.1.symm),
      iff_of_true rfl ⟨hcond.1.symm, hcond.2.symm.trans hcond.1.symm⟩⟩
  · rename_i hcond
    rcases h with ⟨h1, h2, h3, h4, h5⟩ | ⟨h1, h2, h3, h4, h5, h6⟩
    · refine Or.inr ⟨hpn, rfl, hk, h4, h5, ?_⟩
      exact iff_of_false (fun hv => Bool.false_ne_true (h3.symm.trans hv))
        (fun hc => hcond ⟨hc.1.symm, hc.1.trans hc.2.symm⟩)
    · exact Or.inr ⟨hpn, rfl, hk, h4, h5, h6⟩

/-- Every entry after the first two passes over the empty map satisfies
the idle invariant for its key. -/
theorem mappingFirstPasses_inv (localIDs remoteIDs : List String) :
    ∀ kv ∈ mappingRemotePass (mappingLocalPass [] localIDs) remoteIDs,
      mappingInvIdle kv.1 kv.2 := by
  have h1 : ∀ kv ∈ mappingLocalPass ([] : List (String × PodMapping)) localIDs,
      mappingInvIdle kv.1 kv.2 :=
    mappingLocalPass_forall mappingInvIdle localIDs
      (fun i => ⟨rfl, rfl, rfl, Or.inr rfl, Or.inl rfl⟩)
      (fun i m hm => ⟨hm.1, hm.2.1, hm.2.2.1, Or.inr rfl, hm.2.2.2.2⟩)
      [] (fun kv hkv => nomatch hkv)
  exact mappingRemotePass_forall mappingInvIdle remoteIDs
    (fun i => ⟨rfl, rfl, rfl, Or.inl rfl, Or.inr rfl⟩)
    (fun i m hm => ⟨hm.1, hm.2.1, hm.2.2.1, hm.2.2.2.1, Or.inr rfl⟩)
    _ h1

/-- Every entry after all three passes satisfies the join invariant. -/
theorem mappingAllPasses_inv (localIDs remoteIDs : List String)
    (pods : List PodResources)
    (hname : ∀ p ∈ pods, p.podInfo.name ≠ "")
    (hid : ∀ p ∈ pods, ∀ r ∈ p.resources, r.id ≠ "") :
    ∀ kv ∈ mappingPodPass (mappingRemotePass (mappingLocalPass [] localIDs) remoteIDs) pods,
      mappingInv kv.1 kv.2 :=
  mappingPodPass_forall mappingInv pods
    (fun p hp r hr => mappingPodAbsent_inv p r.id (hname p hp) (hid p hp r hr))
    (fun p hp r hr m hm => mappingPodUpdate_inv p r.id (hname p hp) (hid p hp r hr) m hm)
    _ (fun kv hkv => Or.inl (mappingFirstPasses_inv localIDs remoteIDs kv hkv))

/-- The idle pass turns the join invariant into the `Valid`
characterisation of the produced rows. -/
theorem mappingIdlePass_valid (all : List (String × PodMapping))
    (hall : ∀ kv ∈ all, mappingInv kv.1 kv.2) :
    ∀ m ∈ mappingIdlePass all,
      (m.valid = true ↔
        ((m.name ≠ "" ∧ m.localResID = m.remoteResID ∧ m.remoteResID = m.podBindResID) ∨
         (m.name = "" ∧ m.localResID = m.remoteResID))) := by
  intro m hm
  rw [mappingIdlePass] at hm
  rcases List.mem_map.mp hm with ⟨kv, hkv, heq⟩
  rcases hall kv hkv with ⟨h1, h2, h3, h4, h5⟩ | ⟨h1, h2, h3, h4, h5, h6⟩
  · by_cases hc : kv.2.name = "" ∧ kv.2.localResID = kv.2.remoteResID
    · rw [if_pos hc] at heq
      have hv : m.valid = true := by rw [← heq]
      have hn : m.name = kv.2.name := by rw [← heq]
      have hl : m.localResID = kv.2.localResID := by rw [← heq]
      have hr : m.remoteResID = kv.2.remoteResID := by rw [← heq]
      rw [hv, hn, hl, hr]
      exact iff_of_true rfl (Or.inr ⟨h1, hc.2⟩)
    · rw [if_neg hc] at heq
      have hv : m.valid = kv.2.valid := by rw [← heq]
      have hn : m.name = kv.2.name := by rw [← heq]
      have hl : m.localResID = kv.2.localResID := by rw [← heq]
      have hr : m.remoteResID = kv.2.remoteResID := by rw [← heq]
      rw [hv, hn, hl, hr, h3]
      refine iff_of_false Bool.false_ne_true ?_
      rintro (⟨hne, _, _⟩ | ⟨heq2, hlr⟩)
      · exact hne h1
      · exact hc ⟨heq2, hlr⟩
  · have hcond : ¬(kv.2.name = "" ∧ kv.2.localResID = kv.2.remoteResID) :=
      fun hcc => h1 hcc.1
    rw [if_neg hcond] at heq
    have hv : m.valid = kv.2.valid := by rw [← heq]
    have hn : m.name = kv.2.name := by rw [← heq]
    have hl : m.localResID = kv.2.localResID := by rw [← heq]
    have hr : m.remoteResID = kv.2.remoteResID := by rw [← heq]
    have hp : m.podBindResID = kv.2.podBindResID := by rw [← heq]
    rw [hv, hn, hl, hr, hp, h6]
    constructor
    · intro hc
      exact Or.inl ⟨h1, hc.1.trans hc.2.symm, hc.2.trans h2.symm⟩
    · rintro (⟨_, hlr, hrp⟩ | ⟨heq2, _⟩)
      · have hrk : kv.2.remoteResID = kv.1 := hrp.trans h2
        exact ⟨hlr.trans hrk, hrk⟩
      · exact absurd heq2 h1

/-- The mapping order is total. -/
theorem mappingLE_total (a b : PodMapping) : (mappingLE a b || mappingLE b a) = true := by
  rw [mappingLE, mappingLE]
  by_cases h : a.name = b.name
  · rw [if_pos h, if_pos h.symm]
    rcases le_total a.remoteResID b.remoteResID with hle | hle
    · simp [hle]
    · simp [hle]
  · rw [if_neg h, if_neg (fun hh => h hh.symm)]
    rcases lt_or_gt_of_ne h with hlt | hlt
    · simp [hlt]
    · simp [hlt]

/-- The mapping order is transitive. -/
theorem mappingLE_trans (a b c : PodMapping) (h1 : mappingLE a b = true)
    (h2 : mappingLE b c = true) : mappingLE a c = true := by
  rw [mappingLE] at h1 h2 ⊢
  by_cases hab : a.name = b.name
  · rw [if_pos hab] at h1
    by_cases hbc : b.name = c.name
    · rw [if_pos hbc] at h2
      rw [if_pos (hab.trans hbc)]
      exact decide_eq_true (le_trans (of_decide_eq_true h1) (of_decide_eq_true h2))
    · rw [if_neg hbc] at h2
      have hlt : c.name < a.name := by rw [hab]; exact of_decide_eq_true h2
      have hac : ¬a.name = c.name := fun hh => by rw [hh] at hlt; exact lt_irrefl _ hlt
      rw [if_neg hac]
      exact decide_eq_true hlt
  · rw [if_neg hab] at h1
    have g1 : b.name < a.name := of_decide_eq_true h1
    by_cases hbc : b.name = c.name
    · rw [hbc] at g1
      have hac : ¬a.name = c.name := fun hh => by rw [hh] at g1; exact lt_irrefl _ g1
      rw [if_neg hac]
      exact decide_eq_true g1
    · rw [if_neg hbc] at h2
      have hlt : c.name < a.name := lt_trans (of_decide_eq_true h2) g1
      have hac : ¬a.name = c.name := fun hh => by rw [hh] at hlt; exact lt_irrefl _ hlt
      rw [if_neg hac]
      exact decide_eq_true hlt

/-- C8: for every row produced by `toResMapping` (EIP items being
excluded from the join), `Valid` is true iff either the row is bound to a
pod and local, remote and bound ids agree, or it is bound to no pod and
local and remote ids agree; the result is sorted by name descending then
remote id ascending. Hypotheses: live pods have a name, and their
recorded resource items have an id. -/
theorem toResMapping_spec (localIDs remoteIDs : List String) (pods : List PodResources)
    (hname : ∀ p ∈ pods, p.podInfo.name ≠ "")
    (hid : ∀ p ∈ pods, ∀ r ∈ p.resources, r.id ≠ "") :
    (∀ m ∈ toResMapping localIDs remoteIDs pods,
      (m.valid = true ↔
        ((m.name ≠ "" ∧ m.localResID = m.remoteResID ∧ m.remoteResID = m.podBindResID) ∨
         (m.name = "" ∧ m.localResID = m.remoteResID)))) ∧
    (toResMapping localIDs remoteIDs pods).Pairwise (fun a b => mappingLE a b = true) := by
  constructor
  · intro m hm
    simp only [toResMapping, List.mem_mergeSort] at hm
    exact mappingIdlePass_valid _
      (mappingAllPasses_inv localIDs remoteIDs pods hname hid) m hm
  · simp only [toResMapping]
    exact List.sorted_mergeSort mappingLE_trans mappingLE_total _

/-- C8 witness: a concrete join of two local ids, two remote ids and one
bound pod; the bound row is valid and the result is sorted. -/
theorem toResMapping_spec_witness :
    ((∀ p ∈ [sampleJoinPod], p.podInfo.name ≠ "") ∧
      sampleJoinMember ∈ toResMapping ["a", "b"] ["b", "c"] [sampleJoinPod] ∧
      sampleJoinMember.valid = true) ∧
    (toResMapping ["a", "b"] ["b", "c"] [sampleJoinPod]).Pairwise
      (fun a b => mappingLE a b = true) := by
  have hmem : sampleJoinMember ∈ toResMapping ["a", "b"] ["b", "c"] [sampleJoinPod] := by
    simp only [toResMapping, List.mem_mergeSort]
    decide
  have h := toResMapping_spec ["a", "b"] ["b", "c"] [sampleJoinPod] (by decide) (by decide)
  exact ⟨⟨by decide, hmem,
    (h.1 sampleJoinMember hmem).mpr (Or.inl ⟨by decide, by decide, by decide⟩)⟩, h.2⟩

end Terway
